import Mathlib

/-!
# Verification of the qgram ingestion / classification pipeline

Shallow embedding, in Lean 4, of the parts of the `qgram` repository that the
frozen claims are about:

* `MessageDeduplicator` (src/service/qq_callback.py, lines 21-118),
* the admission logic `process_callback_data` (src/service/qq_callback.py, lines 268-337),
* the idle-worker sweep `cleanup_idle_processors` (src/service/qq_callback.py, lines 216-239),
* the message classifier `MessageContentExtractor` (src/utils/message_extractor.py),
* the forward expander `_process_forward_content` (src/utils/qq_to_telegram.py, lines 429-757).

Modelling conventions:

* Python `time.time()` timestamps are modelled as integers (`Int`); only
  differences and comparisons of timestamps matter to the code.
* Python `dict[str, float]` (insertion-ordered, unique keys) is modelled as an
  association list `List (String × Int)` in insertion order; `pyInsert`
  mirrors `d[k] = v` (update in place, else append), `pyDelete` mirrors
  `del d[k]`, `pyLookup` mirrors `d.get(k)` / `k in d`.
* External calls (the QQ profile lookup, `json.loads`, the `GET_FORWARD` API
  and the telegram sender) are abstracted as explicit oracle parameters; the
  code around them is translated faithfully.
* Locale strings (`locale.type(...)`, `locale.common(...)`, loaded from config
  files that are not part of the source tree) are carried as an explicit
  `Locale` record of opaque string values.
-/

/-! ## Python dict primitives -/

/-- `d.get(k)` / `k in d` on an insertion-ordered association list. -/
def pyLookup (k : String) : List (String × Int) → Option Int
  | [] => none
  | (k', v) :: rest => if k' = k then some v else pyLookup k rest

/-- `d[k] = v` on a Python dict: replace the value in place if the key is
present, otherwise append at the end (Python dicts keep insertion order and
keep the original position on update). -/
def pyInsert (k : String) (v : Int) : List (String × Int) → List (String × Int)
  | [] => [(k, v)]
  | (k', v') :: rest => if k' = k then (k, v) :: rest else (k', v') :: pyInsert k v rest

/-- `del d[k]` on a Python dict; on a dict the key occurs at most once, so
filtering the key out is the same operation. -/
def pyDelete (k : String) (l : List (String × Int)) : List (String × Int) :=
  l.filter (fun e => !(e.1 = k : Bool))

/-! ## MessageDeduplicator (src/service/qq_callback.py lines 21-118) -/

/-- State of `MessageDeduplicator.__init__` (qq_callback.py lines 24-35):
`processed_messages` maps message id to admission timestamp. -/
structure Deduplicator where
  processed_messages : List (String × Int)
  cache_size : Nat
  ttl : Int
  last_cleanup : Int
deriving Repr, DecidableEq

/-- `MessageDeduplicator(cache_size, ttl)` freshly constructed at time `t0`
(`last_cleanup = time.time()`). -/
def Deduplicator.init (cache_size : Nat) (ttl : Int) (t0 : Int) : Deduplicator :=
  { processed_messages := [], cache_size := cache_size, ttl := ttl, last_cleanup := t0 }

/-- `MessageDeduplicator._cleanup_expired` (qq_callback.py lines 85-96):
drop every entry whose age at `current_time` is at least `ttl`. -/
def Deduplicator.cleanup_expired (st : Deduplicator) (current_time : Int) : Deduplicator :=
  { st with processed_messages :=
      st.processed_messages.filter (fun e => !(current_time - e.2 ≥ st.ttl : Bool)) }

/-- The comparison `sorted(..., key=lambda x: x[1])` sorts entries by
timestamp.  Python's `sorted` is a stable sort; `List.insertionSort` is
likewise stable, so it computes the same list. -/
def tsLE (a b : String × Int) : Prop := a.2 ≤ b.2

instance : DecidableRel tsLE := fun a b => inferInstanceAs (Decidable (a.2 ≤ b.2))

instance : IsTotal (String × Int) tsLE := ⟨fun a b => Int.le_total a.2 b.2⟩

instance : IsTrans (String × Int) tsLE := ⟨fun _ _ _ h h' => le_trans h h'⟩

/-- `MessageDeduplicator._cleanup_oldest` (qq_callback.py lines 98-110):
if over capacity, sort by timestamp and delete the
`len - cache_size + 1000` oldest entries. -/
def Deduplicator.cleanup_oldest (st : Deduplicator) : Deduplicator :=
  if st.processed_messages.length ≤ st.cache_size then st
  else
    let sorted_items := st.processed_messages.insertionSort tsLE
    let remove_count := st.processed_messages.length - st.cache_size + 1000
    let pm := (sorted_items.take remove_count).foldl (fun m e => pyDelete e.1 m) st.processed_messages
    { st with processed_messages := pm }

/-- The periodic-cleanup prelude of `is_duplicate` (qq_callback.py lines
52-55): every 300 seconds run `_cleanup_expired` and refresh `last_cleanup`. -/
def Deduplicator.maybe_cleanup (st : Deduplicator) (current_time : Int) : Deduplicator :=
  if current_time - st.last_cleanup > 300 then
    { (st.cleanup_expired current_time) with last_cleanup := current_time }
  else st

/-- `MessageDeduplicator.is_duplicate` (qq_callback.py lines 37-66).  Returns
the boolean answer together with the mutated state (the periodic expiry sweep,
the refresh of `last_cleanup`, and the removal of an expired hit are all state
changes performed by the method). -/
def Deduplicator.is_duplicate (st : Deduplicator) (msg_id : String) (current_time : Int) :
    Bool × Deduplicator :=
  if msg_id = "" then (false, st)
  else
    let st := st.maybe_cleanup current_time
    match pyLookup msg_id st.processed_messages with
    | some ts =>
        if current_time - ts < st.ttl then (true, st)
        else (false, { st with processed_messages := pyDelete msg_id st.processed_messages })
    | none => (false, st)

/-- `MessageDeduplicator.mark_processed` (qq_callback.py lines 68-83). -/
def Deduplicator.mark_processed (st : Deduplicator) (msg_id : String) (current_time : Int) :
    Deduplicator :=
  if msg_id = "" then st
  else
    let st := { st with processed_messages := pyInsert msg_id current_time st.processed_messages }
    if st.processed_messages.length > st.cache_size then st.cleanup_oldest else st

/-! ### Basic dictionary lemmas -/

theorem pyLookup_pyInsert_self (k : String) (v : Int) (l : List (String × Int)) :
    pyLookup k (pyInsert k v l) = some v := by
  induction l with
  | nil => simp [pyInsert, pyLookup]
  | cons e rest ih =>
      by_cases h : e.1 = k
      · simp [pyInsert, pyLookup, h]
      · simp [pyInsert, pyLookup, h, ih]

theorem pyLookup_eq_none_of_not_mem (k : String) (l : List (String × Int))
    (h : ∀ e ∈ l, e.1 ≠ k) : pyLookup k l = none := by
  induction l with
  | nil => rfl
  | cons e rest ih =>
      have h1 : e.1 ≠ k := h e (List.mem_cons_self e rest)
      simp only [pyLookup, if_neg h1]
      exact ih (fun e' he' => h e' (List.mem_cons_of_mem e he'))

theorem pyLookup_isSome_of_mem (k : String) (v : Int) (l : List (String × Int))
    (h : (k, v) ∈ l) : pyLookup k l ≠ none := by
  induction l with
  | nil => cases h
  | cons e rest ih =>
      rcases List.mem_cons.mp h with h' | h'
      · subst h'
        simp [pyLookup]
      · by_cases he : e.1 = k
        · simp [pyLookup, he]
        · simp only [pyLookup, if_neg he]
          exact ih h'

theorem pyInsert_of_not_mem (k : String) (v : Int) (l : List (String × Int))
    (h : ∀ e ∈ l, e.1 ≠ k) : pyInsert k v l = l ++ [(k, v)] := by
  induction l with
  | nil => rfl
  | cons e rest ih =>
      have h1 : e.1 ≠ k := h e (List.mem_cons_self e rest)
      simp only [pyInsert, if_neg h1, List.cons_append, List.cons.injEq, true_and]
      exact ih (fun e' he' => h e' (List.mem_cons_of_mem e he'))

theorem pyLookup_eq_none_iff (k : String) (l : List (String × Int)) :
    pyLookup k l = none ↔ ∀ e ∈ l, e.1 ≠ k := by
  constructor
  · intro h e he hk
    refine pyLookup_isSome_of_mem k e.2 l ?_ h
    have : e = (k, e.2) := by
      rw [← hk]
    rw [← this]
    exact he
  · exact pyLookup_eq_none_of_not_mem k l

theorem pyLookup_filter_of_none (k : String) (l : List (String × Int))
    (p : String × Int → Bool) (h : pyLookup k l = none) :
    pyLookup k (l.filter p) = none := by
  rw [pyLookup_eq_none_iff] at h ⊢
  intro e he
  exact h e (List.mem_of_mem_filter he)

theorem pyLookup_append_of_none (k : String) (l1 l2 : List (String × Int))
    (h : pyLookup k l1 = none) : pyLookup k (l1 ++ l2) = pyLookup k l2 := by
  induction l1 with
  | nil => rfl
  | cons e rest ih =>
      by_cases he : e.1 = k
      · simp [pyLookup, he] at h
      · simp only [pyLookup, if_neg he] at h
        simp only [List.cons_append, pyLookup, if_neg he]
        exact ih h

/-! ### C1: the TTL admission window -/

theorem ttl_maybe_cleanup (st : Deduplicator) (t : Int) : (st.maybe_cleanup t).ttl = st.ttl := by
  unfold Deduplicator.maybe_cleanup
  split <;> rfl

theorem cache_size_maybe_cleanup (st : Deduplicator) (t : Int) :
    (st.maybe_cleanup t).cache_size = st.cache_size := by
  unfold Deduplicator.maybe_cleanup
  split <;> rfl

/-- **C1**.  For the `MessageDeduplicator` with TTL `ttl`: a non-empty id not
currently cached is not a duplicate; after one `mark_processed` at time `t0`
(from a state below capacity, so that the capacity eviction of
`_cleanup_oldest` does not interfere), `is_duplicate` at any time less than
`ttl` after the mark answers `true`, and at any time at least `ttl` after the
mark answers `false` again. -/
theorem dedup_ttl_window (st : Deduplicator) (id : String) (t0 now : Int)
    (hid : id ≠ "")
    (hfresh : pyLookup id st.processed_messages = none)
    (hcap : st.processed_messages.length < st.cache_size) :
    (st.is_duplicate id now).1 = false
    ∧ (now - t0 < st.ttl → ((st.mark_processed id t0).is_duplicate id now).1 = true)
    ∧ (now - t0 ≥ st.ttl → ((st.mark_processed id t0).is_duplicate id now).1 = false) := by
  have hmem : ∀ e ∈ st.processed_messages, e.1 ≠ id := (pyLookup_eq_none_iff id _).mp hfresh
  have hmark : st.mark_processed id t0 =
      { st with processed_messages := st.processed_messages ++ [(id, t0)] } := by
    unfold Deduplicator.mark_processed
    rw [if_neg hid, pyInsert_of_not_mem _ _ _ hmem]
    have hlen : ¬ (st.processed_messages ++ [(id, t0)]).length > st.cache_size := by
      simp only [List.length_append, List.length_cons, List.length_nil]
      omega
    simp only [if_neg hlen]
  refine ⟨?_, ?_, ?_⟩
  · -- an id absent from the cache is never reported as duplicate
    unfold Deduplicator.is_duplicate
    rw [if_neg hid]
    have hnone : pyLookup id (st.maybe_cleanup now).processed_messages = none := by
      unfold Deduplicator.maybe_cleanup
      split
      · exact pyLookup_filter_of_none id _ _ hfresh
      · exact hfresh
    simp only [hnone]
  · -- within the TTL window the marked id is reported as duplicate
    intro hlt
    rw [hmark]
    unfold Deduplicator.is_duplicate
    rw [if_neg hid]
    set st1 : Deduplicator := { st with processed_messages := st.processed_messages ++ [(id, t0)] }
    have hsome : pyLookup id (st1.maybe_cleanup now).processed_messages = some t0 := by
      unfold Deduplicator.maybe_cleanup
      split
      · unfold Deduplicator.cleanup_expired
        simp only
        rw [List.filter_append]
        rw [pyLookup_append_of_none id _ _ (pyLookup_filter_of_none id _ _ hfresh)]
        have : (now - t0 ≥ st1.ttl : Bool) = false := by
          simp only [decide_eq_false_iff_not, ge_iff_le, not_le]
          exact hlt
        simp [pyLookup, this]
      · rw [pyLookup_append_of_none id _ _ hfresh]
        simp [pyLookup]
    simp only [hsome]
    have httl : (st1.maybe_cleanup now).ttl = st.ttl := ttl_maybe_cleanup st1 now
    rw [httl]
    simp only [if_pos hlt]
  · -- at or past the TTL the marked id is fresh again
    intro hge
    rw [hmark]
    unfold Deduplicator.is_duplicate
    rw [if_neg hid]
    set st1 : Deduplicator := { st with processed_messages := st.processed_messages ++ [(id, t0)] }
    have httl : (st1.maybe_cleanup now).ttl = st.ttl := ttl_maybe_cleanup st1 now
    unfold Deduplicator.maybe_cleanup at httl ⊢
    split
    · -- the periodic sweep already removed the expired entry
      have hnone : pyLookup id
          ((st1.cleanup_expired now).processed_messages) = none := by
        unfold Deduplicator.cleanup_expired
        simp only
        rw [List.filter_append]
        rw [pyLookup_append_of_none id _ _ (pyLookup_filter_of_none id _ _ hfresh)]
        have : (now - t0 ≥ st1.ttl : Bool) = true := by
          simp only [decide_eq_true_eq, ge_iff_le]
          exact hge
        simp [pyLookup, this]
      simp only [hnone]
    · -- the entry is found but recognised as expired and removed
      have hsome : pyLookup id st1.processed_messages = some t0 := by
        show pyLookup id (st.processed_messages ++ [(id, t0)]) = some t0
        rw [pyLookup_append_of_none id _ _ hfresh]
        simp [pyLookup]
      simp only [hsome]
      have : ¬ (now - t0 < st1.ttl) := by
        show ¬ (now - t0 < st.ttl)
        omega
      simp only [if_neg this]

/-! ### C2: capacity eviction -/

/-- A sequence of `mark_processed` calls, one per `(id, time)` pair, in
order. -/
def markAll (l : List (String × Int)) (st : Deduplicator) : Deduplicator :=
  l.foldl (fun st e => st.mark_processed e.1 e.2) st

/-- The deletion loop of `_cleanup_oldest` (`for msg_id, _ in sorted_items[:remove_count]:
del self.processed_messages[msg_id]`) removes exactly the entries whose key
occurs in the removal batch. -/
theorem foldl_pyDelete_eq_filter (R pm : List (String × Int)) :
    R.foldl (fun m e => pyDelete e.1 m) pm
      = pm.filter (fun x => !(R.any (fun r => (x.1 = r.1 : Bool)))) := by
  induction R generalizing pm with
  | nil => simp
  | cons r R' ih =>
      rw [List.foldl_cons, ih]
      simp only [pyDelete, List.filter_filter, List.any_cons]
      congr 1
      funext x
      by_cases h : x.1 = r.1 <;> simp [h]

/-- Marking a batch of fresh, non-empty ids that fits within the capacity
appends them to the cache in order, with no eviction. -/
theorem markAll_fill (L : List (String × Int)) (st : Deduplicator)
    (hnd : ((st.processed_messages ++ L).map Prod.fst).Nodup)
    (hne : ∀ e ∈ L, e.1 ≠ "")
    (hlen : st.processed_messages.length + L.length ≤ st.cache_size) :
    markAll L st = { st with processed_messages := st.processed_messages ++ L } := by
  induction L generalizing st with
  | nil => simp [markAll]
  | cons e L' ih =>
      have hfresh : ∀ p ∈ st.processed_messages, p.1 ≠ e.1 := by
        intro p hp hpe
        simp only [List.map_append, List.nodup_append] at hnd
        exact hnd.2.2 (List.mem_map_of_mem Prod.fst hp) (by simp [hpe])
      have hmark : st.mark_processed e.1 e.2 =
          { st with processed_messages := st.processed_messages ++ [e] } := by
        unfold Deduplicator.mark_processed
        rw [if_neg (hne e (List.mem_cons_self e L')), pyInsert_of_not_mem _ _ _ hfresh]
        have hgt : ¬ (st.processed_messages ++ [(e.1, e.2)]).length > st.cache_size := by
          simp only [List.length_append, List.length_cons, List.length_nil,
            List.length_cons] at *
          omega
        simp only [if_neg hgt]
      have : markAll (e :: L') st = markAll L' (st.mark_processed e.1 e.2) := rfl
      rw [this, hmark]
      rw [ih { st with processed_messages := st.processed_messages ++ [e] }
        (by simpa [List.append_assoc] using hnd)
        (fun p hp => hne p (List.mem_cons_of_mem e hp))
        (by simp only [List.length_append, List.length_cons, List.length_nil]
            simp only [List.length_cons] at hlen
            omega)]
      simp [List.append_assoc]

/-- Behaviour of `_cleanup_oldest` on a cache one past capacity with distinct
keys: the resulting cache is at most `cache_size` (strictly smaller than
before), keeps only entries that were present, and every evicted entry's
timestamp is at most every retained entry's timestamp. -/
theorem cleanup_oldest_spec (st : Deduplicator)
    (hnd : (st.processed_messages.map Prod.fst).Nodup)
    (hlen : st.processed_messages.length = st.cache_size + 1) :
    (st.cleanup_oldest).processed_messages.length ≤ st.cache_size
    ∧ (st.cleanup_oldest).processed_messages.length < st.processed_messages.length
    ∧ (∀ p ∈ (st.cleanup_oldest).processed_messages, p ∈ st.processed_messages)
    ∧ (∀ e ∈ st.processed_messages,
        pyLookup e.1 (st.cleanup_oldest).processed_messages = none →
        ∀ r ∈ (st.cleanup_oldest).processed_messages, e.2 ≤ r.2) := by
  have hguard : ¬ st.processed_messages.length ≤ st.cache_size := by omega
  set pm := st.processed_messages with hpm
  set c := st.cache_size with hc
  set sorted := pm.insertionSort tsLE with hsorted_def
  set rc := pm.length - c + 1000 with hrc
  set T := sorted.take rc with hT
  set D := sorted.drop rc with hD
  set p : String × Int → Bool := fun x => !(T.any (fun r => (x.1 = r.1 : Bool))) with hp
  have hres : (st.cleanup_oldest).processed_messages = pm.filter p := by
    unfold Deduplicator.cleanup_oldest
    rw [if_neg hguard]
    simpa using foldl_pyDelete_eq_filter T pm
  have hperm : sorted.Perm pm := List.perm_insertionSort tsLE pm
  have hsortnd : (sorted.map Prod.fst).Nodup := ((hperm.map Prod.fst).nodup_iff).mpr hnd
  have htd : T ++ D = sorted := List.take_append_drop rc sorted
  have hdisj : (T.map Prod.fst).Disjoint (D.map Prod.fst) := by
    have := hsortnd
    rw [← htd, List.map_append, List.nodup_append] at this
    exact this.2.2
  have hfT : T.filter p = [] := by
    rw [List.filter_eq_nil_iff]
    intro a ha
    simp only [hp, Bool.not_eq_true', Bool.not_eq_false, List.any_eq_true]
    exact ⟨a, ha, by simp⟩
  have hfD : D.filter p = D := by
    rw [List.filter_eq_self]
    intro a ha
    simp only [hp, Bool.not_eq_true', List.any_eq_false]
    intro r hr har
    exact hdisj (List.mem_map_of_mem Prod.fst hr)
      (by rw [← of_decide_eq_true har]; exact List.mem_map_of_mem Prod.fst ha)
  have hresD : (pm.filter p).Perm D := by
    have h1 : (pm.filter p).Perm (sorted.filter p) := (hperm.symm).filter p
    rw [← htd, List.filter_append, hfT, hfD, List.nil_append] at h1
    exact h1
  have hlenD : D.length = pm.length - rc := List.length_drop rc sorted |>.trans (by rw [hperm.length_eq])
  have hlenres : (pm.filter p).length = pm.length - rc := hresD.length_eq.trans hlenD
  refine ⟨?_, ?_, ?_, ?_⟩
  · rw [hres, hlenres]
    omega
  · rw [hres, hlenres]
    omega
  · intro q hq
    rw [hres] at hq
    exact List.mem_of_mem_filter hq
  · intro e he hlook r hr
    rw [hres] at hlook hr
    have heS : e ∈ sorted := hperm.mem_iff.mpr he
    have heTD : e ∈ T ∨ e ∈ D := by
      rw [← htd] at heS
      exact List.mem_append.mp heS
    have hrD : r ∈ D := hresD.mem_iff.mp hr
    rcases heTD with heT | heD
    · have hsorted : List.Sorted tsLE sorted := List.sorted_insertionSort tsLE pm
      rw [← htd] at hsorted
      exact (List.pairwise_append.mp hsorted).2.2 e heT r hrD
    · exfalso
      have : e ∈ pm.filter p := hresD.mem_iff.mpr heD
      have hmk : (e.1, e.2) ∈ pm.filter p := by
        simpa using this
      exact pyLookup_isSome_of_mem e.1 e.2 (pm.filter p) hmk hlook

/-- **C2**.  Starting from an empty deduplicator with capacity `cache_size`
and marking `cache_size + 1` distinct non-empty ids: the last mark triggers an
eviction, afterwards the cache holds at most `cache_size` entries (strictly
fewer than were marked, so at least one id was evicted), every retained entry
is one of the marked ones, and every evicted id's admission timestamp is no
newer than every retained id's. -/
theorem dedup_eviction (c : Nat) (ttl lc : Int) (L : List (String × Int))
    (hlen : L.length = c + 1)
    (hne : ∀ e ∈ L, e.1 ≠ "")
    (hnd : (L.map Prod.fst).Nodup) :
    (markAll L (Deduplicator.init c ttl lc)).processed_messages.length ≤ c
    ∧ (markAll L (Deduplicator.init c ttl lc)).processed_messages.length < L.length
    ∧ (∀ p ∈ (markAll L (Deduplicator.init c ttl lc)).processed_messages, p ∈ L)
    ∧ (∀ e ∈ L,
        pyLookup e.1 (markAll L (Deduplicator.init c ttl lc)).processed_messages = none →
        ∀ r ∈ (markAll L (Deduplicator.init c ttl lc)).processed_messages, e.2 ≤ r.2) := by
  -- split off the final mark
  have hne' : L ≠ [] := by
    intro h
    rw [h] at hlen
    simp at hlen
  obtain ⟨L', e, rfl⟩ : ∃ L' e, L = L' ++ [e] :=
    ⟨L.dropLast, L.getLast hne', (List.dropLast_append_getLast hne').symm⟩
  have hlenL' : L'.length = c := by
    simp only [List.length_append, List.length_cons, List.length_nil] at hlen
    omega
  -- the first `c` marks fill the cache with no eviction
  have hfill : markAll L' (Deduplicator.init c ttl lc) =
      { Deduplicator.init c ttl lc with processed_messages := L' } := by
    have := markAll_fill L' (Deduplicator.init c ttl lc)
      (by simpa [Deduplicator.init] using
        (List.Nodup.sublist (by simp [List.map_append]) hnd : (L'.map Prod.fst).Nodup))
      (fun p hp => hne p (List.mem_append_left _ hp))
      (by simp [Deduplicator.init, hlenL'])
    simpa [Deduplicator.init] using this
  have hsplit : markAll (L' ++ [e]) (Deduplicator.init c ttl lc)
      = (markAll L' (Deduplicator.init c ttl lc)).mark_processed e.1 e.2 := by
    unfold markAll
    rw [List.foldl_append]
    rfl
  -- the last mark overflows and calls `_cleanup_oldest`
  have hfreshe : ∀ q ∈ L', q.1 ≠ e.1 := by
    intro q hq hqe
    rw [List.map_append, List.nodup_append] at hnd
    exact hnd.2.2 (List.mem_map_of_mem Prod.fst hq) (by simp [hqe])
  have hmark : (markAll (L' ++ [e]) (Deduplicator.init c ttl lc)) =
      Deduplicator.cleanup_oldest
        { Deduplicator.init c ttl lc with processed_messages := L' ++ [e] } := by
    rw [hsplit, hfill]
    unfold Deduplicator.mark_processed
    rw [if_neg (hne e (List.mem_append_right _ (List.mem_cons_self e [])))]
    simp only
    rw [pyInsert_of_not_mem _ _ _ hfreshe]
    have hgt : (L' ++ [(e.1, e.2)]).length > c := by
      simp [hlenL']
    simp only [Deduplicator.init] at *
    rw [if_pos hgt]
  set st1 : Deduplicator :=
    { Deduplicator.init c ttl lc with processed_messages := L' ++ [e] } with hst1
  have hnd1 : (st1.processed_messages.map Prod.fst).Nodup := by
    simpa [hst1, Deduplicator.init] using hnd
  have hlen1 : st1.processed_messages.length = st1.cache_size + 1 := by
    simp [hst1, Deduplicator.init, hlenL']
  have hspec := cleanup_oldest_spec st1 hnd1 hlen1
  rw [hmark]
  refine ⟨?_, ?_, ?_, ?_⟩
  · exact hspec.1
  · calc st1.cleanup_oldest.processed_messages.length < st1.processed_messages.length := hspec.2.1
      _ = (L' ++ [e]).length := by rw [hst1]
  · intro q hq
    have := hspec.2.2.1 q hq
    simpa [hst1] using this
  · intro q hq hlook r hr
    exact hspec.2.2.2 q (by simpa [hst1] using hq) hlook r hr

/-- Witness for `dedup_eviction`: capacity 2, three distinct marks. -/
theorem dedup_eviction_witness :
    (markAll [("a", 0), ("b", 1), ("c", 2)] (Deduplicator.init 2 3600 0)).processed_messages.length ≤ 2
    ∧ (markAll [("a", 0), ("b", 1), ("c", 2)] (Deduplicator.init 2 3600 0)).processed_messages.length
        < ([("a", 0), ("b", 1), ("c", 2)] : List (String × Int)).length
    ∧ (∀ p ∈ (markAll [("a", 0), ("b", 1), ("c", 2)] (Deduplicator.init 2 3600 0)).processed_messages,
        p ∈ ([("a", 0), ("b", 1), ("c", 2)] : List (String × Int)))
    ∧ (∀ e ∈ ([("a", 0), ("b", 1), ("c", 2)] : List (String × Int)),
        pyLookup e.1 (markAll [("a", 0), ("b", 1), ("c", 2)] (Deduplicator.init 2 3600 0)).processed_messages = none →
        ∀ r ∈ (markAll [("a", 0), ("b", 1), ("c", 2)] (Deduplicator.init 2 3600 0)).processed_messages,
          e.2 ≤ r.2) :=
  dedup_eviction 2 3600 0 [("a", 0), ("b", 1), ("c", 2)] (by decide) (by decide) (by decide)

/-! ## Admission: process_callback_data (src/service/qq_callback.py lines 268-337)

The relevant inputs of `callback_data` are `message_id` (as the string key
`msg_key = f"{msg_id}"`), `from_id` (the conversation key
`group_id or target_id or user_id`) and `post_type`.  The `try` block that
creates the per-contact worker and enqueues the message is abstracted by the
boolean `dispatchOk`: `true` models a normal return, `false` models the
`except` path (lines 310-321). -/

/-- Result of one `process_callback_data` call. -/
inductive COutcome where
  /-- `if not msg_id or not from_id: return` (line 283). -/
  | ignored
  /-- the duplicate branch (lines 292-296). -/
  | droppedDuplicate
  /-- worker obtained and message enqueued (lines 298-308). -/
  | dispatched
  /-- worker creation/enqueue raised; the `except` branch removed the dedup
  mark (lines 310-321). -/
  | dispatchFailed
deriving Repr, DecidableEq

/-- The `try/except` dispatch block of `process_callback_data` (qq_callback.py
lines 298-321): mark the id as processed, then either dispatch successfully
or, on failure, remove the id from the dedup cache (`if msg_key in
deduplicator.processed_messages: del deduplicator.processed_messages[msg_key]`). -/
def dispatch_step (st : Deduplicator) (msg_key : String) (now : Int) (dispatchOk : Bool) :
    Deduplicator × COutcome :=
  let st2 := st.mark_processed msg_key now
  if dispatchOk then (st2, COutcome.dispatched)
  else
    match pyLookup msg_key st2.processed_messages with
    | some _ =>
        ({ st2 with processed_messages := pyDelete msg_key st2.processed_messages },
          COutcome.dispatchFailed)
    | none => (st2, COutcome.dispatchFailed)

/-- `process_callback_data` (qq_callback.py lines 268-337).  Note the Python
short-circuit `if post_type == "message" and deduplicator.is_duplicate(msg_key)`:
for a non-`"message"` post type `is_duplicate` is never called, so neither its
answer nor its state mutations occur. -/
def process_callback_data (st : Deduplicator) (now : Int)
    (msg_id from_id post_type : String) (dispatchOk : Bool) : Deduplicator × COutcome :=
  if msg_id = "" ∨ from_id = "" then (st, COutcome.ignored)
  else
    if post_type = "message" then
      match st.is_duplicate msg_id now with
      | (true, st1) => (st1, COutcome.droppedDuplicate)
      | (false, st1) => dispatch_step st1 msg_id now dispatchOk
    else dispatch_step st msg_id now dispatchOk

/-- The per-message body of `ContactMessageProcessor._process_messages`
(qq_callback.py lines 163-191), projected onto the deduplicator state: the
downstream handler `process_callback_message` runs inside `try/except` and
the `except` branch (lines 180-181) only logs the error.  The method never
references the deduplicator, so the dedup state is returned unchanged whether
the handler succeeds (`handlerOk = true`) or raises (`handlerOk = false`). -/
def worker_process_message (st : Deduplicator) (handlerOk : Bool) : Deduplicator :=
  match handlerOk with
  | true => st
  | false => st

/-! ### Auxiliary dedup lemmas shared by C6 and C10 -/

theorem pyLookup_pyDelete_self (k : String) (l : List (String × Int)) :
    pyLookup k (pyDelete k l) = none := by
  rw [pyLookup_eq_none_iff]
  intro e he hk
  rcases List.mem_filter.mp he with ⟨_, hpe⟩
  simp [hk] at hpe

theorem is_duplicate_false_of_absent (st : Deduplicator) (id : String) (now : Int)
    (h : pyLookup id st.processed_messages = none) :
    (st.is_duplicate id now).1 = false := by
  unfold Deduplicator.is_duplicate
  by_cases hid : id = ""
  · simp [hid]
  · rw [if_neg hid]
    have hnone : pyLookup id (st.maybe_cleanup now).processed_messages = none := by
      unfold Deduplicator.maybe_cleanup
      split
      · exact pyLookup_filter_of_none id _ _ h
      · exact h
    simp only [hnone]

theorem dispatch_fail_releases (st : Deduplicator) (k : String) (now : Int) :
    pyLookup k (dispatch_step st k now false).1.processed_messages = none := by
  unfold dispatch_step
  rw [if_neg Bool.false_ne_true]
  cases hl : pyLookup k (st.mark_processed k now).processed_messages with
  | some v => simp only [hl, pyLookup_pyDelete_self]
  | none => simp only [hl]

theorem dispatch_step_not_dropped (st : Deduplicator) (k : String) (now : Int) (ok : Bool) :
    (dispatch_step st k now ok).2 ≠ COutcome.droppedDuplicate := by
  unfold dispatch_step
  by_cases hok : ok = true
  · rw [if_pos hok]
    intro h
    cases h
  · rw [if_neg hok]
    cases hl : pyLookup k (st.mark_processed k now).processed_messages with
    | some v =>
        intro h
        cases h
    | none =>
        intro h
        cases h

theorem process_callback_not_dropped_of_absent (st : Deduplicator) (now : Int)
    (id frm post : String) (ok : Bool) (hid : id ≠ "") (hfrom : frm ≠ "")
    (habs : pyLookup id st.processed_messages = none) :
    (process_callback_data st now id frm post ok).2 ≠ COutcome.droppedDuplicate := by
  unfold process_callback_data
  rw [if_neg (by rintro (h | h); exacts [hid h, hfrom h])]
  by_cases hpt : post = "message"
  · rw [if_pos hpt]
    have hfst : (st.is_duplicate id now).1 = false :=
      is_duplicate_false_of_absent st id now habs
    have hdup : st.is_duplicate id now
        = ((st.is_duplicate id now).1, (st.is_duplicate id now).2) := rfl
    rw [hfst] at hdup
    rw [hdup]
    exact dispatch_step_not_dropped _ id now ok
  · rw [if_neg hpt]
    exact dispatch_step_not_dropped st id now ok

theorem length_pyInsert_le (k : String) (v : Int) (l : List (String × Int)) :
    (pyInsert k v l).length ≤ l.length + 1 := by
  induction l with
  | nil => simp [pyInsert]
  | cons e rest ih =>
      by_cases h : e.1 = k
      · simp [pyInsert, h]
      · simp only [pyInsert, if_neg h, List.length_cons]
        omega

/-- Under capacity, `mark_processed` merely inserts the id at the current
time, with no eviction and no other state change. -/
theorem mark_processed_under_capacity (st : Deduplicator) (id : String) (now : Int)
    (hid : id ≠ "") (hcap : st.processed_messages.length < st.cache_size) :
    st.mark_processed id now =
      { st with processed_messages := pyInsert id now st.processed_messages } := by
  unfold Deduplicator.mark_processed
  rw [if_neg hid]
  have := length_pyInsert_le id now st.processed_messages
  have hgt : ¬ (pyInsert id now st.processed_messages).length > st.cache_size := by omega
  simp only [if_neg hgt]

/-! ### C6: is a failed message's dedup mark released? -/

/-- **C6 counterexample.**  The claim says a downstream failure while the
conversation worker handles an admitted message releases the dedup mark.  In
the code the worker's `except` branch only logs: after admitting id `"42"`
(dispatch succeeds) and a failing downstream handler, a re-delivery of `"42"`
one second later is dropped as a duplicate, not admitted. -/
theorem worker_failure_leaves_mark_counterexample :
    (process_callback_data (Deduplicator.init 1000 3600 0) 0 "42" "100" "message" true).2
        = COutcome.dispatched
    ∧ (process_callback_data
        (worker_process_message
          (process_callback_data (Deduplicator.init 1000 3600 0) 0 "42" "100" "message" true).1
          false)
        1 "42" "100" "message" true).2 = COutcome.droppedDuplicate := by
  constructor <;> rfl

/-- **C6 (amended).**  Only a failure of the synchronous dispatch releases the
dedup mark: for a fresh message id, if worker creation / enqueue raises, the
id is removed from the cache and a later re-delivery of the same id is not
dropped as a duplicate.  (A downstream failure inside the worker, by
contrast, leaves the mark in place — see
`worker_failure_leaves_mark_counterexample`.) -/
theorem dispatch_failure_releases_mark (st : Deduplicator) (now now2 : Int)
    (msg_id from_id from_id2 post_type : String) (dispatchOk2 : Bool)
    (hid : msg_id ≠ "") (hfrom : from_id ≠ "") (hfrom2 : from_id2 ≠ "")
    (hfresh : pyLookup msg_id st.processed_messages = none) :
    pyLookup msg_id
        (process_callback_data st now msg_id from_id post_type false).1.processed_messages = none
    ∧ (process_callback_data (process_callback_data st now msg_id from_id post_type false).1
        now2 msg_id from_id2 "message" dispatchOk2).2 ≠ COutcome.droppedDuplicate := by
  have hguard : ¬ (msg_id = "" ∨ from_id = "") := by
    intro h
    rcases h with h | h
    · exact hid h
    · exact hfrom h
  have hrel : pyLookup msg_id
      (process_callback_data st now msg_id from_id post_type false).1.processed_messages = none := by
    unfold process_callback_data
    rw [if_neg hguard]
    by_cases hpt : post_type = "message"
    · rw [if_pos hpt]
      have hfst : (st.is_duplicate msg_id now).1 = false :=
        is_duplicate_false_of_absent st msg_id now hfresh
      have heta : st.is_duplicate msg_id now = (false, (st.is_duplicate msg_id now).2) := by
        rw [← hfst]
      rw [heta]
      exact dispatch_fail_releases _ _ _
    · rw [if_neg hpt]
      exact dispatch_fail_releases _ _ _
  exact ⟨hrel, process_callback_not_dropped_of_absent _ now2 msg_id from_id2 "message"
    dispatchOk2 hid hfrom2 hrel⟩

/-- Witness for `dispatch_failure_releases_mark` at a concrete scenario. -/
theorem dispatch_failure_releases_mark_witness :
    pyLookup "42" (process_callback_data (Deduplicator.init 1000 3600 0) 0
        "42" "100" "message" false).1.processed_messages = none
    ∧ (process_callback_data
        (process_callback_data (Deduplicator.init 1000 3600 0) 0 "42" "100" "message" false).1
        1 "42" "100" "message" true).2 ≠ COutcome.droppedDuplicate :=
  dispatch_failure_releases_mark (Deduplicator.init 1000 3600 0) 0 1 "42" "100" "100" "message"
    true (by decide) (by decide) (by decide) rfl

/-! ### C10: only `post_type == "message"` events are dedup-checked -/

/-- **C10.**  An admitted event whose `post_type` is not `"message"` (with a
non-empty message id and conversation key) never consults the duplicate
check: it is never dropped as a duplicate — even if its id is already marked
in the cache — and none of `is_duplicate`'s state mutations happen (witnessed
by `last_cleanup` staying untouched); yet `mark_processed` still records the
id at admission time (stated below capacity so the in-mark eviction cannot
remove the fresh record again). -/
theorem non_message_events_bypass_dedup (st : Deduplicator) (now : Int)
    (msg_id from_id post_type : String) (dispatchOk : Bool)
    (hpost : post_type ≠ "message") (hid : msg_id ≠ "") (hfrom : from_id ≠ "")
    (hcap : st.processed_messages.length < st.cache_size) :
    (process_callback_data st now msg_id from_id post_type dispatchOk).2 ≠ COutcome.droppedDuplicate
    ∧ (process_callback_data st now msg_id from_id post_type dispatchOk).1.last_cleanup
        = st.last_cleanup
    ∧ (dispatchOk = true →
        (process_callback_data st now msg_id from_id post_type dispatchOk).2 = COutcome.dispatched
        ∧ pyLookup msg_id
            (process_callback_data st now msg_id from_id post_type dispatchOk).1.processed_messages
          = some now) := by
  have hguard : ¬ (msg_id = "" ∨ from_id = "") := by
    rintro (h | h)
    exacts [hid h, hfrom h]
  have hmark := mark_processed_under_capacity st msg_id now hid hcap
  have hred : process_callback_data st now msg_id from_id post_type dispatchOk
      = dispatch_step st msg_id now dispatchOk := by
    unfold process_callback_data
    rw [if_neg hguard, if_neg hpost]
  refine ⟨?_, ?_, ?_⟩
  · rw [hred]
    exact dispatch_step_not_dropped st msg_id now dispatchOk
  · rw [hred]
    unfold dispatch_step
    by_cases hok : dispatchOk = true
    · rw [if_pos hok, hmark]
    · rw [if_neg hok]
      cases hl : pyLookup msg_id (st.mark_processed msg_id now).processed_messages with
      | some v => rw [hmark]
      | none => rw [hmark]
  · intro hok
    rw [hred]
    unfold dispatch_step
    rw [if_pos hok, hmark]
    exact ⟨rfl, pyLookup_pyInsert_self msg_id now st.processed_messages⟩

/-- Witness for `non_message_events_bypass_dedup`: a `"notice"` event whose
id `"42"` is already marked in the cache is still dispatched, not dropped. -/
theorem non_message_events_bypass_dedup_witness :
    (process_callback_data ⟨[("42", 0)], 1000, 3600, 0⟩ 5 "42" "100" "notice" true).2
        ≠ COutcome.droppedDuplicate
    ∧ (process_callback_data ⟨[("42", 0)], 1000, 3600, 0⟩ 5 "42" "100" "notice" true).1.last_cleanup
        = (0 : Int)
    ∧ (true = true →
        (process_callback_data ⟨[("42", 0)], 1000, 3600, 0⟩ 5 "42" "100" "notice" true).2
            = COutcome.dispatched
        ∧ pyLookup "42"
            (process_callback_data ⟨[("42", 0)], 1000, 3600, 0⟩ 5 "42" "100" "notice" true).1.processed_messages
          = some 5) :=
  non_message_events_bypass_dedup ⟨[("42", 0)], 1000, 3600, 0⟩ 5 "42" "100" "notice" true
    (by decide) (by decide) (by decide) (by decide)

/-- Witness for `dedup_ttl_window` at a concrete state and times. -/
theorem dedup_ttl_window_witness :
    ((Deduplicator.init 1000 3600 0).is_duplicate "42" 5).1 = false
    ∧ (5 - 5 < (3600 : Int) →
        (((Deduplicator.init 1000 3600 0).mark_processed "42" 5).is_duplicate "42" 5).1 = true)
    ∧ (5 - 5 ≥ (3600 : Int) →
        (((Deduplicator.init 1000 3600 0).mark_processed "42" 5).is_duplicate "42" 5).1 = false) :=
  dedup_ttl_window (Deduplicator.init 1000 3600 0) "42" 5 5 (by decide) (by decide) (by decide)

/-! ## Per-conversation dispatcher: idle reclamation
(src/service/qq_callback.py lines 216-239) -/

/-- The observable state of one `ContactMessageProcessor` used by the idle
sweep: its queue contents and its `last_activity` timestamp. -/
structure Processor where
  message_queue : List String
  last_activity : Int
deriving Repr, DecidableEq

/-- `idle_contacts` as computed by one iteration of `cleanup_idle_processors`
(qq_callback.py lines 224-230): the contacts, in registry order, whose queue
is empty and whose last activity lies more than 600 seconds in the past. -/
def idle_contacts (procs : List (String × Processor)) (now : Int) : List String :=
  (procs.filter
    (fun kp => kp.2.message_queue.isEmpty && (now - kp.2.last_activity > 600 : Bool))).map
    Prod.fst

/-- One sweep body of `cleanup_idle_processors` (qq_callback.py lines
232-236): pop (and stop) the first at most 10 idle contacts
(`idle_contacts[:10]`).  Returns the surviving registry and the list of
removed contact keys. -/
def cleanup_idle_sweep (procs : List (String × Processor)) (now : Int) :
    List (String × Processor) × List String :=
  (procs.filter
      (fun kp => !(((idle_contacts procs now).take 10).any (fun k => (kp.1 = k : Bool)))),
    (idle_contacts procs now).take 10)

/-- **C9.**  On one sweep: at most 10 workers are removed; a worker with a
non-empty queue, or with activity within the 600-second threshold, is never
removed; and when the per-sweep cap is not exceeded, every worker with an
empty queue and activity older than the threshold is removed. -/
theorem idle_reclamation (procs : List (String × Processor)) (now : Int)
    (hnd : (procs.map Prod.fst).Nodup) :
    ((cleanup_idle_sweep procs now).2).length ≤ 10
    ∧ (∀ k p, (k, p) ∈ procs → p.message_queue ≠ [] →
        (k, p) ∈ (cleanup_idle_sweep procs now).1)
    ∧ (∀ k p, (k, p) ∈ procs → ¬(now - p.last_activity > 600) →
        (k, p) ∈ (cleanup_idle_sweep procs now).1)
    ∧ ((idle_contacts procs now).length ≤ 10 →
        ∀ k p, (k, p) ∈ procs → p.message_queue = [] → now - p.last_activity > 600 →
          k ∉ ((cleanup_idle_sweep procs now).1.map Prod.fst)) := by
  have hsurvive : ∀ k p, (k, p) ∈ procs →
      ¬(p.message_queue.isEmpty && (now - p.last_activity > 600 : Bool)) = true →
      (k, p) ∈ (cleanup_idle_sweep procs now).1 := by
    intro k p hmem hnotidle
    show (k, p) ∈ procs.filter
      (fun kp => !(((idle_contacts procs now).take 10).any (fun k => (kp.1 = k : Bool))))
    rw [List.mem_filter]
    refine ⟨hmem, ?_⟩
    rw [Bool.not_eq_true', List.any_eq_false]
    intro k' hk' hdec
    have hkk' : k = k' := of_decide_eq_true hdec
    have hk'idle : k' ∈ idle_contacts procs now :=
      List.mem_of_mem_take hk'
    unfold idle_contacts at hk'idle
    rcases List.mem_map.mp hk'idle with ⟨⟨k2, p2⟩, hmem2, hfst⟩
    rcases List.mem_filter.mp hmem2 with ⟨hmem2', hidle2⟩
    have hk2 : (k, p2) ∈ procs := by
      have hfst' : k2 = k' := hfst
      have hx : k2 = k := by rw [hfst', ← hkk']
      rw [← hx]
      exact hmem2'
    have hpp : p = p2 := congrArg Prod.snd
      (List.inj_on_of_nodup_map hnd hmem hk2 rfl)
    rw [← hpp] at hidle2
    exact hnotidle hidle2
  refine ⟨?_, ?_, ?_, ?_⟩
  · show ((idle_contacts procs now).take 10).length ≤ 10
    rw [List.length_take]
    exact min_le_left _ _
  · intro k p hmem hq
    refine hsurvive k p hmem ?_
    intro h
    simp only [Bool.and_eq_true] at h
    exact hq (List.isEmpty_iff.mp h.1)
  · intro k p hmem hact
    refine hsurvive k p hmem ?_
    intro h
    simp only [Bool.and_eq_true] at h
    exact hact (of_decide_eq_true h.2)
  · intro hcap k p hmem hq hact hk
    have hkidle : k ∈ idle_contacts procs now := by
      unfold idle_contacts
      refine List.mem_map.mpr ⟨(k, p), ?_, rfl⟩
      rw [List.mem_filter]
      exact ⟨hmem, by
        simp only [Bool.and_eq_true, List.isEmpty_iff, decide_eq_true_eq]
        exact ⟨hq, hact⟩⟩
    have htake : (idle_contacts procs now).take 10 = idle_contacts procs now :=
      List.take_of_length_le hcap
    rcases List.mem_map.mp hk with ⟨⟨k2, p2⟩, hmem2, hfst⟩
    have hmem2' : (k2, p2) ∈ procs.filter
        (fun kp => !(((idle_contacts procs now).take 10).any (fun k => (kp.1 = k : Bool)))) :=
      hmem2
    rcases List.mem_filter.mp hmem2' with ⟨_, hpred⟩
    rw [Bool.not_eq_true', List.any_eq_false, htake] at hpred
    exact hpred k hkidle (decide_eq_true hfst)

/-- Witness for `idle_reclamation` on a concrete registry: `"a"` idle,
`"b"` recently active, `"c"` with a queued item. -/
theorem idle_reclamation_witness :
    ((cleanup_idle_sweep [("a", ⟨[], 0⟩), ("b", ⟨[], 900⟩), ("c", ⟨["m"], 0⟩)] 1000).2).length ≤ 10
    ∧ (∀ k p, (k, p) ∈ [("a", (⟨[], 0⟩ : Processor)), ("b", ⟨[], 900⟩), ("c", ⟨["m"], 0⟩)] →
        p.message_queue ≠ [] →
        (k, p) ∈ (cleanup_idle_sweep [("a", ⟨[], 0⟩), ("b", ⟨[], 900⟩), ("c", ⟨["m"], 0⟩)] 1000).1)
    ∧ (∀ k p, (k, p) ∈ [("a", (⟨[], 0⟩ : Processor)), ("b", ⟨[], 900⟩), ("c", ⟨["m"], 0⟩)] →
        ¬(1000 - p.last_activity > 600) →
        (k, p) ∈ (cleanup_idle_sweep [("a", ⟨[], 0⟩), ("b", ⟨[], 900⟩), ("c", ⟨["m"], 0⟩)] 1000).1)
    ∧ ((idle_contacts [("a", ⟨[], 0⟩), ("b", ⟨[], 900⟩), ("c", ⟨["m"], 0⟩)] 1000).length ≤ 10 →
        ∀ k p, (k, p) ∈ [("a", (⟨[], 0⟩ : Processor)), ("b", ⟨[], 900⟩), ("c", ⟨["m"], 0⟩)] →
          p.message_queue = [] → 1000 - p.last_activity > 600 →
          k ∉ ((cleanup_idle_sweep [("a", ⟨[], 0⟩), ("b", ⟨[], 900⟩), ("c", ⟨["m"], 0⟩)] 1000).1.map
            Prod.fst)) :=
  idle_reclamation [("a", ⟨[], 0⟩), ("b", ⟨[], 900⟩), ("c", ⟨["m"], 0⟩)] 1000 (by decide)

/-! ## Media URL repair (src/utils/message_extractor.py lines 250-261)

`_handle_media` repairs the URL of a `file`-type media segment whose URL is
missing its filename query parameter.  URLs are modelled as `List Char` so
that Python's substring (`in`), suffix (`endswith`) and concatenation
operations are the standard list predicates. -/

/-- The characters `urllib.parse.quote` leaves unescaped with the default
`safe='/'`: ASCII letters, digits, `_ . - ~` and `/`. -/
def quoteSafe (c : Char) : Bool :=
  decide (('A' ≤ c ∧ c ≤ 'Z') ∨ ('a' ≤ c ∧ c ≤ 'z') ∨ ('0' ≤ c ∧ c ≤ '9')
    ∨ c = '_' ∨ c = '.' ∨ c = '-' ∨ c = '~' ∨ c = '/')

def hexDigits : List Char := "0123456789ABCDEF".data

/-- Upper-case hex digit, as used by `quote`'s `%XX` escapes. -/
def hexDigit (n : Nat) : Char := hexDigits.getD n '0'

/-- UTF-8 encoding of one character as byte values (`quote` percent-encodes
the UTF-8 bytes of non-safe characters). -/
def utf8Bytes (c : Char) : List Nat :=
  if c.toNat < 128 then [c.toNat]
  else if c.toNat < 2048 then [192 + c.toNat / 64, 128 + c.toNat % 64]
  else if c.toNat < 65536 then
    [224 + c.toNat / 4096, 128 + (c.toNat / 64) % 64, 128 + c.toNat % 64]
  else
    [240 + c.toNat / 262144, 128 + (c.toNat / 4096) % 64, 128 + (c.toNat / 64) % 64,
      128 + c.toNat % 64]

/-- One character's contribution to `urllib.parse.quote(s, safe='/')`. -/
def quoteChar (c : Char) : List Char :=
  if quoteSafe c then [c]
  else ((utf8Bytes c).map (fun b => ['%', hexDigit (b / 16), hexDigit (b % 16)])).flatten

/-- `urllib.parse.quote(s, safe='/')`. -/
def pyQuote : List Char → List Char
  | [] => []
  | c :: rest => quoteChar c ++ pyQuote rest

/-- The literal `'?fname='` the code tests with `endswith` / `in`. -/
def fnamePat : List Char := "?fname=".data

/-- The URL-repair block of `_handle_media` (message_extractor.py lines
252-261), reached when the segment is `file`-typed with a non-empty file
name:

```python
if url.endswith('?fname=') or '?fname=' not in url:
    if url.endswith('?fname='):
        url = url + urllib.parse.quote(file_name)
    elif '?fname=' not in url:
        separator = '&' if '?' in url else '?'
        url = url + f'{separator}fname=' + urllib.parse.quote(file_name)
```
-/
def repairFileUrl (url fname : List Char) : List Char :=
  if fnamePat <:+ url ∨ ¬ (fnamePat <:+: url) then
    if fnamePat <:+ url then url ++ pyQuote fname
    else if ¬ (fnamePat <:+: url) then
      (url ++ (if '?' ∈ url then ['&'] else ['?'])) ++ "fname=".data ++ pyQuote fname
    else url
  else url

/-! ### C4: properties of the repair step -/

theorem getD_mem_or_default (l : List Char) (n : Nat) (d : Char) :
    l.getD n d ∈ l ∨ l.getD n d = d := by
  by_cases h : n < l.length
  · left
    rw [List.getD_eq_getElem l d h]
    exact List.getElem_mem h
  · right
    exact List.getD_eq_default l d (le_of_not_lt h)

theorem hexDigit_ne (n : Nat) : hexDigit n ≠ '=' ∧ hexDigit n ≠ '?' := by
  have h : hexDigit n ∈ hexDigits ∨ hexDigit n = '0' := getD_mem_or_default hexDigits n '0'
  constructor <;> intro heq <;> rcases h with h | h <;> rw [heq] at h <;>
    exact absurd h (by decide)

theorem mem_quoteChar_ne (c x : Char) (hx : x ∈ quoteChar c) : x ≠ '=' ∧ x ≠ '?' := by
  unfold quoteChar at hx
  by_cases hs : quoteSafe c
  · rw [if_pos hs] at hx
    have hxc : x = c := List.mem_singleton.mp hx
    subst hxc
    constructor <;> intro heq <;> rw [heq] at hs <;> exact absurd hs (by decide)
  · rw [if_neg hs] at hx
    rcases List.mem_flatten.mp hx with ⟨l, hl, hxl⟩
    rcases List.mem_map.mp hl with ⟨b, _, rfl⟩
    simp only [List.mem_cons, List.not_mem_nil, or_false] at hxl
    rcases hxl with rfl | rfl | rfl
    · exact ⟨by decide, by decide⟩
    · exact hexDigit_ne _
    · exact hexDigit_ne _

theorem pyQuote_chars (s : List Char) : ∀ x ∈ pyQuote s, x ≠ '=' ∧ x ≠ '?' := by
  induction s with
  | nil => intro x hx; cases hx
  | cons c rest ih =>
      intro x hx
      rcases List.mem_append.mp hx with h | h
      · exact mem_quoteChar_ne c x h
      · exact ih x h

theorem utf8Bytes_ne_nil (c : Char) : utf8Bytes c ≠ [] := by
  unfold utf8Bytes
  split_ifs <;> simp

theorem quoteChar_ne_nil (c : Char) : quoteChar c ≠ [] := by
  unfold quoteChar
  by_cases hs : quoteSafe c
  · rw [if_pos hs]
    simp
  · rw [if_neg hs]
    rcases hb : utf8Bytes c with _ | ⟨b, rest⟩
    · exact absurd hb (utf8Bytes_ne_nil c)
    · simp

theorem pyQuote_ne_nil (s : List Char) (h : s ≠ []) : pyQuote s ≠ [] := by
  cases s with
  | nil => exact absurd rfl h
  | cons c rest =>
      show quoteChar c ++ pyQuote rest ≠ []
      intro hcontra
      rcases List.append_eq_nil.mp hcontra with ⟨h1, _⟩
      exact quoteChar_ne_nil c h1

/-- `'?fname='` can never be a suffix of `url ++ quote(fname)` for a non-empty
filename: the quoted filename is non-empty and `quote` never emits `'='`. -/
theorem fnamePat_not_suffix_append_quote (url fname : List Char) (hf : fname ≠ []) :
    ¬ (fnamePat <:+ url ++ pyQuote fname) := by
  intro hsuf
  rcases hsuf with ⟨t, ht⟩
  have hq : pyQuote fname ≠ [] := pyQuote_ne_nil fname hf
  have h1 : (t ++ fnamePat).getLast? = (url ++ pyQuote fname).getLast? := by rw [ht]
  rw [List.getLast?_append_of_ne_nil _ (by decide : fnamePat ≠ []),
    List.getLast?_append_of_ne_nil _ hq] at h1
  have h2 : (pyQuote fname).getLast? = some ((pyQuote fname).getLast hq) :=
    List.getLast?_eq_getLast_of_ne_nil hq
  rw [h2] at h1
  have h3 : fnamePat.getLast? = some '=' := by decide
  rw [h3] at h1
  have h4 : (pyQuote fname).getLast hq ∈ pyQuote fname := List.getLast_mem hq
  have h5 := pyQuote_chars fname _ h4
  exact h5.1 (Option.some.inj h1).symm

/-- **C4 counterexample.**  The repair is not idempotent on a URL that
already carries a different query parameter: `http://x/f?k=1` repairs to
`http://x/f?k=1&fname=a`, and a second application appends a second
`fname` parameter because the re-check looks for the substring `'?fname='`
which the `&`-joined parameter does not contain. -/
theorem repairFileUrl_not_idempotent :
    repairFileUrl (repairFileUrl "http://x/f?k=1".data "a".data) "a".data
      ≠ repairFileUrl "http://x/f?k=1".data "a".data := by decide

/-- **C4 (amended).**  The filename-repair step is idempotent for every URL
that either contains no `'?'` at all, or ends with the empty parameter
`'?fname='` (i.e. the two cases in which the repaired URL contains the
substring `'?fname='` the re-check looks for); a non-empty filename is what
`_handle_media`'s guard guarantees.  For URLs with a pre-existing different
query parameter idempotence fails (`repairFileUrl_not_idempotent`). -/
theorem repairFileUrl_idempotent (url fname : List Char) (hf : fname ≠ [])
    (h : ('?' ∉ url) ∨ fnamePat <:+ url) :
    repairFileUrl (repairFileUrl url fname) fname = repairFileUrl url fname := by
  rcases h with hq | hsuf
  · -- no query string at all: `'?fname='` joined with `'?'`
    have hnosuf : ¬ (fnamePat <:+ url) := by
      intro hs
      exact hq (hs.subset (by decide : '?' ∈ fnamePat))
    have hnoinf : ¬ (fnamePat <:+: url) := by
      intro hs
      exact hq (hs.subset (by decide : '?' ∈ fnamePat))
    have hrepair : repairFileUrl url fname
        = (url ++ ['?']) ++ "fname=".data ++ pyQuote fname := by
      unfold repairFileUrl
      rw [if_pos (Or.inr hnoinf), if_neg hnosuf, if_pos hnoinf, if_neg hq]
    rw [hrepair]
    have hassoc : (url ++ ['?']) ++ "fname=".data ++ pyQuote fname
        = ((url ++ ['?']) ++ "fname=".data) ++ pyQuote fname := by
      simp [List.append_assoc]
    have hsuf1 : ¬ (fnamePat <:+ (url ++ ['?']) ++ "fname=".data ++ pyQuote fname) := by
      rw [hassoc]
      exact fnamePat_not_suffix_append_quote _ fname hf
    have hinf1 : fnamePat <:+: (url ++ ['?']) ++ "fname=".data ++ pyQuote fname := by
      refine ⟨url, pyQuote fname, ?_⟩
      have hfp : fnamePat = ['?'] ++ "fname=".data := rfl
      rw [hfp]
      simp [List.append_assoc]
    unfold repairFileUrl
    rw [if_neg (by
      rintro (hs | hni)
      · exact hsuf1 hs
      · exact hni hinf1)]
  · -- the URL already ends with `'?fname='`
    have hrepair : repairFileUrl url fname = url ++ pyQuote fname := by
      unfold repairFileUrl
      rw [if_pos (Or.inl hsuf), if_pos hsuf]
    rw [hrepair]
    have hsuf1 : ¬ (fnamePat <:+ url ++ pyQuote fname) :=
      fnamePat_not_suffix_append_quote url fname hf
    have hinf1 : fnamePat <:+: url ++ pyQuote fname := by
      rcases hsuf with ⟨t, rfl⟩
      exact ⟨t, pyQuote fname, by simp [List.append_assoc]⟩
    unfold repairFileUrl
    rw [if_neg (by
      rintro (hs | hni)
      · exact hsuf1 hs
      · exact hni hinf1)]

/-- Witness for `repairFileUrl_idempotent` on a query-less URL. -/
theorem repairFileUrl_idempotent_witness :
    repairFileUrl (repairFileUrl "http://x/f".data "a b".data) "a b".data
      = repairFileUrl "http://x/f".data "a b".data :=
  repairFileUrl_idempotent "http://x/f".data "a b".data (by decide) (Or.inl (by decide))

/-! ## Message classifier: MessageContentExtractor (src/utils/message_extractor.py)

The extractor's collaborators are abstracted as oracle parameters:

* the locale strings (`locale.type(...)` / `locale.common(...)`, loaded from
  configuration outside the source tree) as a `Locale` record;
* `user_info_fetcher` (an awaited QQ API call, message_extractor.py lines
  438-505) as a function returning a `FetchOutcome`: it may raise (`exn`,
  caught at line 161), return the empty — falsy — dict (`emptyDict`, what the
  fetcher itself returns on any API failure), or return profile data;
* `json.loads` plus the subsequent `meta.news` field extraction in
  `_handle_json` (lines 179-208) as a function returning `Option JsonNews`
  (`none` models the parse raising, caught at line 205). -/

structure QLocale where
  type_video : String
  type_voice : String
  type_file : String
  type_reply : String
  type_share : String
  type_music : String
  type_location : String
  type_emoji : String
  type_image : String
  type_forward : String
  type_sticker : String
  type_unknown : String
  common_all : String
deriving Repr, DecidableEq

/-- One message segment `{'type': ..., 'data': {...}}` as the tagged union the
handlers destructure; constructor fields mirror the `data` keys each handler
reads.  `unknown` covers any other `type` string; `nonDict` covers array
entries that are not dicts (skipped by the scan, line 105-106). -/
inductive Segment where
  | text (txt : String)
  | image (url file file_size summary : String) (sub_type : Nat)
  | reply (idData : String)
  | forward (fid : String)
  | atSeg (qq : String)
  | video (url file : String)
  | record (url file : String)
  | fileSeg (url file : String)
  | jsonSeg (data : String)
  | share (title : String)
  | music (title : String)
  | location (title : String)
  | face (faceText : String)
  | unknown (kind : String)
  | nonDict
deriving Repr, DecidableEq

structure ImageInfo where
  url : String
  file : String
  size : String
  is_sticker : Bool
  summary : String
deriving Repr, DecidableEq

structure MediaItem where
  type : String
  url : String
  file : String
deriving Repr, DecidableEq

/-- The `ParsedMessage` accumulator dataclass (message_extractor.py lines
12-28). -/
structure ParsedMessage where
  text_parts : List String
  images : List ImageInfo
  media_items : List MediaItem
  has_reply : Bool
  reply_segments : List Segment
  has_forward : Bool
  forward_data : Option (String × String)
  has_at : Bool
  at_segments : List Segment
deriving Repr, DecidableEq

def ParsedMessage.empty : ParsedMessage :=
  ⟨[], [], [], false, [], false, none, false, []⟩

/-- `ParsedMessage.text_content`: `''.join(self.text_parts)`. -/
def ParsedMessage.text_content (p : ParsedMessage) : String :=
  String.join p.text_parts

/-- Outcome of the awaited `user_info_fetcher` call inside `_handle_at`. -/
inductive FetchOutcome where
  | exn
  | emptyDict
  | info (card nickname : String)
deriving Repr, DecidableEq

/-- The fields `_handle_json` reads out of the parsed JSON: `meta.news.tag`,
`meta.news.title` (falling back to the top-level `prompt`), `meta.news.jumpUrl`.
Missing keys are the `.get` defaults: `""` for tag/jumpUrl, `none` for the
optional title/prompt. -/
structure JsonNews where
  tag : String
  title : Option String
  prompt : Option String
  jumpUrl : String
deriving Repr, DecidableEq

/-- Ambient collaborators of the extractor. -/
structure ExtractorCtx where
  locale : QLocale
  fetchUser : Nat → String → FetchOutcome
  jsonParse : String → Option JsonNews

/-- The message-level fields of `callback_message` the handlers read:
`get('group_id', 0)` and `get('message_id', '')`. -/
structure CallbackMessage where
  group_id : Nat
  message_id : String
deriving Repr, DecidableEq

/-- Python `str.strip()` (ASCII whitespace). -/
def isPyWs (c : Char) : Bool :=
  decide (c = ' ' ∨ c = '\t' ∨ c = '\n' ∨ c = '\r' ∨ c = '\x0b' ∨ c = '\x0c')

def pyStrip (s : String) : String :=
  String.mk (((s.data.dropWhile isPyWs).reverse.dropWhile isPyWs).reverse)

/-! ### Segment handlers -/

/-- `_handle_text` (lines 212-216). -/
def handle_text (txt : String) (r : ParsedMessage) : ParsedMessage :=
  if txt ≠ "" then { r with text_parts := r.text_parts ++ [txt] } else r

/-- `_handle_image` (lines 218-242).  An image segment with a URL becomes an
image descriptor (a sticker when the summary is the animated-sticker marker,
the subtype is 1, or the summary contains the marker substring); one without
a URL degrades to a bracketed text placeholder. -/
def handle_image (url file file_size summary : String) (sub_type : Nat)
    (r : ParsedMessage) : ParsedMessage :=
  if url ≠ "" then
    let is_sticker :=
      decide (summary = "[动画表情]" ∨ sub_type = 1 ∨ "动画表情".data <:+: summary.data)
    { r with images := r.images ++ [⟨url, file, file_size, is_sticker, summary⟩] }
  else
    let placeholder :=
      if summary = "[动画表情]" ∨ sub_type = 1 then "[贴纸表情]" else "[图片]"
    { r with text_parts := r.text_parts ++ [placeholder] }

/-- `_handle_media` (lines 244-274), instantiated per media kind by the parse
loop with `MEDIA_CONFIGS[seg_type]`: the display string, the stored media
`type` (`config.get('type', seg_type)`) and whether this is the `file` kind
whose URL gets the filename repair. -/
def handle_media (seg_is_file : Bool) (display media_type : String)
    (url file_name : String) (r : ParsedMessage) : ParsedMessage :=
  if url ≠ "" then
    let url2 :=
      if seg_is_file ∧ file_name ≠ "" then String.mk (repairFileUrl url.data file_name.data)
      else url
    { r with media_items := r.media_items ++ [⟨media_type, url2, file_name⟩] }
  else
    let display_text :=
      "[" ++ display ++ (if file_name ≠ "" then ": " ++ file_name else "") ++ "]"
    { r with text_parts := r.text_parts ++ [display_text] }

/-- `_handle_reply` (lines 276-279). -/
def handle_reply (seg : Segment) (r : ParsedMessage) : ParsedMessage :=
  { r with has_reply := true, reply_segments := r.reply_segments ++ [seg] }

/-- `_handle_forward` (lines 281-295); `extract` always passes the callback
message, whose `message_id` is captured alongside the forward id. -/
def handle_forward (fid : String) (cm : CallbackMessage) (r : ParsedMessage) : ParsedMessage :=
  { r with has_forward := true, forward_data := some (fid, cm.message_id) }

/-- The text appended by `_handle_at` (lines 141-177): `[@全体成员]` for
`qq == 'all'`; otherwise the display name from the looked-up profile
(`card` falling back to `nickname` falling back to the raw qq), or the raw qq
when the lookup raises (caught, line 161) or returns a falsy dict. -/
def at_display (ctx : ExtractorCtx) (cm : CallbackMessage) (qq : String) : String :=
  if qq = "all" then "[@" ++ ctx.locale.common_all ++ "]"
  else
    match ctx.fetchUser cm.group_id qq with
    | .exn => "[@" ++ qq ++ "]"
    | .emptyDict => "[@" ++ qq ++ "]"
    | .info card nickname =>
        "[@" ++ (if card ≠ "" then card else if nickname ≠ "" then nickname else qq) ++ "]"

def handle_at (ctx : ExtractorCtx) (cm : CallbackMessage) (qq : String) (seg : Segment)
    (r : ParsedMessage) : ParsedMessage :=
  { r with has_at := true, at_segments := r.at_segments ++ [seg],
           text_parts := r.text_parts ++ [at_display ctx cm qq] }

/-- The text appended by `_handle_json` (lines 179-208): `[JSON消息]` when
parsing fails, otherwise an optional blockquote for the tag followed by a
linked or plain title. -/
def json_text (ctx : ExtractorCtx) (data : String) : String :=
  match ctx.jsonParse data with
  | none => "[JSON消息]"
  | some news =>
      let title :=
        match news.title with
        | some t => t
        | none =>
            match news.prompt with
            | some pr => pr
            | none => "[JSON消息]"
      let parts : List String :=
        (if news.tag ≠ "" then ["<blockquote>" ++ news.tag ++ "</blockquote>"] else [])
          ++ [if news.jumpUrl ≠ "" then
                "<a href=\"" ++ news.jumpUrl ++ "\">" ++ title ++ "</a>"
              else title]
      String.intercalate "\n" parts

def handle_json (ctx : ExtractorCtx) (data : String) (r : ParsedMessage) : ParsedMessage :=
  { r with text_parts := r.text_parts ++ [json_text ctx data] }

/-- `SPECIAL_FORMATTERS` for share/music/location (lines 42-45). -/
def handle_special (display title : String) (r : ParsedMessage) : ParsedMessage :=
  { r with text_parts := r.text_parts ++ ["[" ++ display ++ ": " ++ title ++ "]"] }

/-- `SPECIAL_FORMATTERS['face']` (lines 46-50): the face text with leading
slashes stripped, else the emoji placeholder. -/
def handle_face (Lc : QLocale) (faceText : String) (r : ParsedMessage) : ParsedMessage :=
  let s :=
    if faceText ≠ "" then
      "[" ++ String.mk (faceText.data.dropWhile (fun c => (c = '/' : Bool))) ++ "]"
    else "[" ++ Lc.type_emoji ++ "]"
  { r with text_parts := r.text_parts ++ [s] }

/-- One iteration of the scan loop of `_parse_all_segments` (lines 100-138):
dispatch the segment by kind to its handler. -/
def parse_segment (ctx : ExtractorCtx) (cm : CallbackMessage) (r : ParsedMessage) :
    Segment → ParsedMessage
  | .text txt => handle_text txt r
  | .image url file fs summary sub => handle_image url file fs summary sub r
  | .reply d => handle_reply (.reply d) r
  | .forward fid => handle_forward fid cm r
  | .atSeg qq => handle_at ctx cm qq (.atSeg qq) r
  | .video url file => handle_media false ctx.locale.type_video "video" url file r
  | .record url file => handle_media false ctx.locale.type_voice "voice" url file r
  | .fileSeg url file => handle_media true ctx.locale.type_file "file" url file r
  | .jsonSeg d => handle_json ctx d r
  | .share t => handle_special ctx.locale.type_share t r
  | .music t => handle_special ctx.locale.type_music t r
  | .location t => handle_special ctx.locale.type_location t r
  | .face ft => handle_face ctx.locale ft r
  | .unknown kind => { r with text_parts := r.text_parts ++ ["[" ++ kind ++ "]"] }
  | .nonDict => r

/-- `_parse_all_segments` (lines 100-138): fold the scan over the segment
array in order, starting from the empty accumulator. -/
def parse_all_segments (ctx : ExtractorCtx) (cm : CallbackMessage)
    (msgs : List Segment) : ParsedMessage :=
  msgs.foldl (parse_segment ctx cm) ParsedMessage.empty

/-! ### Classification (message_extractor.py lines 319-434) -/

/-- Content payload of a classified result: a string or the image list. -/
inductive RContent where
  | str (s : String)
  | imgList (l : List ImageInfo)
deriving Repr, DecidableEq

/-- `_create_result` output (lines 555-560): `{'type', 'content'}` plus the
keyword fields the individual checkers add (absent ones keep the defaults). -/
structure ExtractResult where
  type : String
  content : RContent
  text : String := ""
  file : String := ""
  size : String := ""
  summary : String := ""
  forward_id : String := ""
  at_list : List String := []
  message : List Segment := []
deriving Repr, DecidableEq

/-- `_check_forward` (lines 341-355). -/
def check_forward (p : ParsedMessage) (orig : List Segment) : Option ExtractResult :=
  if p.has_forward then
    let fd := p.forward_data.getD ("", "")
    some { type := "forward", content := .str fd.2, forward_id := fd.1, message := orig }
  else none

/-- `_check_reply` (lines 357-365). -/
def check_reply (Lc : QLocale) (p : ParsedMessage) (orig : List Segment) :
    Option ExtractResult :=
  if p.has_reply then
    some { type := "reply", content := .str Lc.type_reply, message := orig }
  else none

def seg_qq : Segment → String
  | .atSeg qq => qq
  | _ => ""

/-- `_check_at` (lines 367-384): only applicable with no image and no media
descriptors, and a stripped combined text shorter than 50 characters. -/
def check_at (p : ParsedMessage) (orig : List Segment) : Option ExtractResult :=
  if p.has_at ∧ p.images = [] ∧ p.media_items = [] then
    if (pyStrip p.text_content).length < 50 then
      some { type := "at", content := .str p.text_content,
             at_list := p.at_segments.map seg_qq, message := orig }
    else none
  else none

/-- `_check_multiple_images` (lines 386-391). -/
def check_multiple_images (p : ParsedMessage) : Option ExtractResult :=
  if p.images.length ≤ 1 then none
  else some { type := "images", content := .imgList p.images, text := p.text_content }

/-- `_check_single_image` (lines 393-408). -/
def check_single_image (p : ParsedMessage) : Option ExtractResult :=
  match p.images, p.media_items with
  | [img], [] =>
      some { type := if img.is_sticker then "sticker" else "image",
             content := .str img.url, file := img.file, size := img.size,
             summary := img.summary, text := p.text_content }
  | _, _ => none

/-- `_check_single_media` (lines 410-421). -/
def check_single_media (p : ParsedMessage) : Option ExtractResult :=
  match p.media_items, p.images with
  | [m], [] =>
      some { type := m.type, content := .str m.url, file := m.file,
             text := p.text_content }
  | _, _ => none

/-- `_format_file_size` (lines 545-553).  Python formats the KB/MB value with
`'{:.1f}'` floating-point formatting; this is reproduced with exact integer
tenths (round-half-up), which the claims never depend on. -/
def format_file_size (size_bytes : Nat) : String :=
  if size_bytes < 1024 then toString size_bytes ++ "B"
  else if size_bytes < 1024 * 1024 then
    let tenths := (size_bytes * 10 + 512) / 1024
    toString (tenths / 10) ++ "." ++ toString (tenths % 10) ++ "KB"
  else
    let tenths := (size_bytes * 10 + 524288) / 1048576
    toString (tenths / 10) ++ "." ++ toString (tenths % 10) ++ "MB"

/-- `_format_image_description` (lines 522-536); `int(size)` is modelled by
`String.toNat?`, whose failure falls through to the generic description. -/
def format_image_description (img : ImageInfo) : String :=
  match (if img.size ≠ "" then img.size.toNat? else none) with
  | some n => "[图片: " ++ img.file ++ ", " ++ format_file_size n ++ "]\n" ++ img.url
  | none =>
      "[图片" ++ (if img.file ≠ "" then ": " ++ img.file else "") ++ "]\n" ++ img.url

/-- `_format_media_description` (lines 538-543). -/
def format_media_description (Lc : QLocale) (m : MediaItem) : String :=
  let type_name :=
    if m.type = "video" then Lc.type_video
    else if m.type = "voice" then Lc.type_voice
    else if m.type = "file" then Lc.type_file
    else m.type
  "[" ++ type_name ++ (if m.file ≠ "" then ": " ++ m.file else "") ++ "]\n" ++ m.url

/-- `_build_mixed_content` (lines 507-520). -/
def build_mixed_content (Lc : QLocale) (p : ParsedMessage) : String :=
  String.intercalate "\n"
    ((if p.text_parts ≠ [] then [p.text_content] else [])
      ++ p.images.map format_image_description
      ++ p.media_items.map (format_media_description Lc))

/-- `_check_mixed` (lines 423-429). -/
def check_mixed (Lc : QLocale) (p : ParsedMessage) : Option ExtractResult :=
  if p.images = [] ∧ p.media_items = [] then none
  else some { type := "mixed", content := .str (build_mixed_content Lc p) }

/-- `_check_text` (lines 431-434): the fallback; blank content becomes the
explicit `[空消息]` marker. -/
def check_text (p : ParsedMessage) : ExtractResult :=
  let final_text := if pyStrip p.text_content ≠ "" then p.text_content else "[空消息]"
  { type := "text", content := .str final_text }

/-- `_determine_message_type` (lines 319-339): run the checkers in their fixed
priority order, first hit wins, falling back to plain text. -/
def determine_message_type (Lc : QLocale) (p : ParsedMessage) (orig : List Segment) :
    ExtractResult :=
  match check_forward p orig with
  | some r => r
  | none =>
    match check_reply Lc p orig with
    | some r => r
    | none =>
      match check_at p orig with
      | some r => r
      | none =>
        match check_multiple_images p with
        | some r => r
        | none =>
          match check_single_image p with
          | some r => r
          | none =>
            match check_single_media p with
            | some r => r
            | none =>
              match check_mixed Lc p with
              | some r => r
              | none => check_text p

/-- The `message` field of the callback event: either a JSON array of
segments, or some other value (whose Python truthiness and `str()` rendering
are carried along). -/
inductive MessageField where
  | segs (l : List Segment)
  | notList (truthy : Bool) (repr : String)
deriving Repr, DecidableEq

/-- `extract` (lines 74-96): non-list message values short-circuit to a text
result (`str(value)` or `[空消息]`); otherwise scan the segments and classify.
The surrounding `try/except` (lines 93-96) collapses any internal exception
to a `text` fallback; in this embedding every failure source (the profile
lookup, the JSON parse) is caught inside its handler, so the parse and the
classification are total and that branch is unreachable. -/
def extract (ctx : ExtractorCtx) (cm : CallbackMessage) (msg : MessageField) : ExtractResult :=
  match msg with
  | .notList truthy r =>
      { type := "text", content := .str (if truthy then r else "[空消息]") }
  | .segs l => determine_message_type ctx.locale (parse_all_segments ctx cm l) l

/-! ### Scan invariants -/

def isForwardSeg : Segment → Bool
  | .forward _ => true
  | _ => false

def isReplySeg : Segment → Bool
  | .reply _ => true
  | _ => false

def isAtSeg : Segment → Bool
  | .atSeg _ => true
  | _ => false

theorem parse_segment_has_forward (ctx : ExtractorCtx) (cm : CallbackMessage)
    (r : ParsedMessage) (s : Segment) :
    (parse_segment ctx cm r s).has_forward = (r.has_forward || isForwardSeg s) := by
  cases s <;>
    simp only [parse_segment, handle_text, handle_image, handle_media, handle_reply,
      handle_forward, handle_at, handle_json, handle_special, handle_face, isForwardSeg] <;>
    (try split_ifs) <;> simp

theorem parse_segment_has_reply (ctx : ExtractorCtx) (cm : CallbackMessage)
    (r : ParsedMessage) (s : Segment) :
    (parse_segment ctx cm r s).has_reply = (r.has_reply || isReplySeg s) := by
  cases s <;>
    simp only [parse_segment, handle_text, handle_image, handle_media, handle_reply,
      handle_forward, handle_at, handle_json, handle_special, handle_face, isReplySeg] <;>
    (try split_ifs) <;> simp

theorem parse_segment_has_at (ctx : ExtractorCtx) (cm : CallbackMessage)
    (r : ParsedMessage) (s : Segment) :
    (parse_segment ctx cm r s).has_at = (r.has_at || isAtSeg s) := by
  cases s <;>
    simp only [parse_segment, handle_text, handle_image, handle_media, handle_reply,
      handle_forward, handle_at, handle_json, handle_special, handle_face, isAtSeg] <;>
    (try split_ifs) <;> simp

theorem parse_foldl_has_forward (ctx : ExtractorCtx) (cm : CallbackMessage)
    (l : List Segment) (r : ParsedMessage) :
    (l.foldl (parse_segment ctx cm) r).has_forward = (r.has_forward || l.any isForwardSeg) := by
  induction l generalizing r with
  | nil => simp
  | cons s rest ih =>
      rw [List.foldl_cons, ih, parse_segment_has_forward]
      simp [Bool.or_assoc]

theorem parse_foldl_has_reply (ctx : ExtractorCtx) (cm : CallbackMessage)
    (l : List Segment) (r : ParsedMessage) :
    (l.foldl (parse_segment ctx cm) r).has_reply = (r.has_reply || l.any isReplySeg) := by
  induction l generalizing r with
  | nil => simp
  | cons s rest ih =>
      rw [List.foldl_cons, ih, parse_segment_has_reply]
      simp [Bool.or_assoc]

theorem parse_foldl_has_at (ctx : ExtractorCtx) (cm : CallbackMessage)
    (l : List Segment) (r : ParsedMessage) :
    (l.foldl (parse_segment ctx cm) r).has_at = (r.has_at || l.any isAtSeg) := by
  induction l generalizing r with
  | nil => simp
  | cons s rest ih =>
      rw [List.foldl_cons, ih, parse_segment_has_at]
      simp [Bool.or_assoc]

theorem mem_append_single {m x : MediaItem} {l : List MediaItem}
    (hm : m ∈ l ++ [x]) : m ∈ l ∨ m = x := by
  rcases List.mem_append.mp hm with h | h
  · exact Or.inl h
  · exact Or.inr (List.mem_singleton.mp h)

theorem handle_media_media_types (sf : Bool) (d mt u f : String) (r : ParsedMessage)
    (m : MediaItem) (hm : m ∈ (handle_media sf d mt u f r).media_items) :
    m ∈ r.media_items ∨ m.type = mt := by
  unfold handle_media at hm
  split_ifs at hm <;>
    first
      | exact Or.inl hm
      | (rcases mem_append_single hm with h | h
         · exact Or.inl h
         · exact Or.inr (by rw [h]))

/-- Every media descriptor the scan collects has one of the three media
types of `MEDIA_CONFIGS` (`'video'`, `'voice'`, `'file'`). -/
theorem parse_segment_media_types (ctx : ExtractorCtx) (cm : CallbackMessage)
    (r : ParsedMessage) (s : Segment) (m : MediaItem)
    (hm : m ∈ (parse_segment ctx cm r s).media_items) :
    m ∈ r.media_items ∨ m.type = "video" ∨ m.type = "voice" ∨ m.type = "file" := by
  cases s
  case video url file =>
    rcases handle_media_media_types false ctx.locale.type_video "video" url file r m hm with h | h
    · exact Or.inl h
    · exact Or.inr (Or.inl h)
  case record url file =>
    rcases handle_media_media_types false ctx.locale.type_voice "voice" url file r m hm with h | h
    · exact Or.inl h
    · exact Or.inr (Or.inr (Or.inl h))
  case fileSeg url file =>
    rcases handle_media_media_types true ctx.locale.type_file "file" url file r m hm with h | h
    · exact Or.inl h
    · exact Or.inr (Or.inr (Or.inr h))
  all_goals
    simp only [parse_segment, handle_text, handle_image, handle_reply, handle_forward,
      handle_at, handle_json, handle_special, handle_face] at hm
  all_goals
    first
      | exact Or.inl hm
      | (split_ifs at hm <;> exact Or.inl hm)

theorem parse_foldl_media_types (ctx : ExtractorCtx) (cm : CallbackMessage)
    (l : List Segment) (r : ParsedMessage) (m : MediaItem)
    (hm : m ∈ (l.foldl (parse_segment ctx cm) r).media_items) :
    m ∈ r.media_items ∨ m.type = "video" ∨ m.type = "voice" ∨ m.type = "file" := by
  induction l generalizing r with
  | nil => exact Or.inl hm
  | cons s rest ih =>
      rw [List.foldl_cons] at hm
      rcases ih (parse_segment ctx cm r s) hm with h | h
      · exact parse_segment_media_types ctx cm r s m h
      · exact Or.inr h

theorem parse_media_types (ctx : ExtractorCtx) (cm : CallbackMessage)
    (l : List Segment) (m : MediaItem)
    (hm : m ∈ (parse_all_segments ctx cm l).media_items) :
    m.type = "video" ∨ m.type = "voice" ∨ m.type = "file" := by
  rcases parse_foldl_media_types ctx cm l ParsedMessage.empty m hm with h | h
  · cases h
  · exact h

/-! ### Behaviour of `_determine_message_type` -/

theorem det_forward (Lc : QLocale) (p : ParsedMessage) (orig : List Segment)
    (hf : p.has_forward = true) :
    (determine_message_type Lc p orig).type = "forward" := by
  simp [determine_message_type, check_forward, hf]

theorem det_reply (Lc : QLocale) (p : ParsedMessage) (orig : List Segment)
    (hf : p.has_forward = false) (hr : p.has_reply = true) :
    (determine_message_type Lc p orig).type = "reply" := by
  simp [determine_message_type, check_forward, check_reply, hf, hr]

theorem det_at (Lc : QLocale) (p : ParsedMessage) (orig : List Segment)
    (hf : p.has_forward = false) (hr : p.has_reply = false) (hat : p.has_at = true)
    (hi : p.images = []) (hm : p.media_items = [])
    (hlen : (pyStrip p.text_content).length < 50) :
    (determine_message_type Lc p orig).type = "at" := by
  simp [determine_message_type, check_forward, check_reply, check_at, hf, hr, hat, hi, hm, hlen]

theorem det_images (Lc : QLocale) (p : ParsedMessage) (orig : List Segment)
    (hf : p.has_forward = false) (hr : p.has_reply = false)
    (hlen : 1 < p.images.length) :
    (determine_message_type Lc p orig).type = "images" := by
  have hne : ¬ (p.images = []) := by
    intro h
    rw [h] at hlen
    simp at hlen
  have hnotle : ¬ (p.images.length ≤ 1) := by omega
  simp [determine_message_type, check_forward, check_reply, check_at, check_multiple_images,
    hf, hr, hne, hnotle]

theorem det_single_image (Lc : QLocale) (p : ParsedMessage) (orig : List Segment)
    (img : ImageInfo)
    (hf : p.has_forward = false) (hr : p.has_reply = false)
    (hI : p.images = [img]) (hM : p.media_items = []) :
    (determine_message_type Lc p orig).type = (if img.is_sticker then "sticker" else "image") := by
  simp [determine_message_type, check_forward, check_reply, check_at, check_multiple_images,
    check_single_image, hf, hr, hI, hM]

theorem det_single_media (Lc : QLocale) (p : ParsedMessage) (orig : List Segment)
    (m : MediaItem)
    (hf : p.has_forward = false) (hr : p.has_reply = false)
    (hM : p.media_items = [m]) (hI : p.images = []) :
    (determine_message_type Lc p orig).type = m.type := by
  simp [determine_message_type, check_forward, check_reply, check_at, check_multiple_images,
    check_single_image, check_single_media, hf, hr, hI, hM]

theorem det_mixed (Lc : QLocale) (p : ParsedMessage) (orig : List Segment)
    (hf : p.has_forward = false) (hr : p.has_reply = false)
    (hcond : (p.images.length = 1 ∧ p.media_items ≠ []) ∨
      (p.images = [] ∧ 2 ≤ p.media_items.length)) :
    (determine_message_type Lc p orig).type = "mixed" := by
  rcases hcond with ⟨h1, h2⟩ | ⟨h1, h2⟩
  · rcases hI : p.images with _ | ⟨img, is'⟩
    · rw [hI] at h1
      simp at h1
    · rcases hM : p.media_items with _ | ⟨mm, ms⟩
      · exact absurd hM h2
      · have his' : is' = [] := by
          rw [hI] at h1
          simpa using h1
        subst his'
        simp [determine_message_type, check_forward, check_reply, check_at,
          check_multiple_images, check_single_image, check_single_media, check_mixed,
          hf, hr, hI, hM]
  · rcases hM : p.media_items with _ | ⟨mm, ms⟩
    · rw [hM] at h2
      simp at h2
    · rcases hms : ms with _ | ⟨mm2, ms2⟩
      · rw [hM, hms] at h2
        simp at h2
      · subst hms
        simp [determine_message_type, check_forward, check_reply, check_at,
          check_multiple_images, check_single_image, check_single_media, check_mixed,
          hf, hr, h1, hM]

theorem det_text (Lc : QLocale) (p : ParsedMessage) (orig : List Segment)
    (hf : p.has_forward = false) (hr : p.has_reply = false)
    (hI : p.images = []) (hM : p.media_items = [])
    (hat : p.has_at = false ∨ 50 ≤ (pyStrip p.text_content).length) :
    (determine_message_type Lc p orig).type = "text" := by
  rcases hat with hat | hat
  · simp [determine_message_type, check_forward, check_reply, check_at,
      check_multiple_images, check_single_image, check_single_media, check_mixed, check_text,
      hf, hr, hI, hM, hat]
  · have hnotlt : ¬ ((pyStrip p.text_content).length < 50) := by omega
    simp [determine_message_type, check_forward, check_reply, check_at,
      check_multiple_images, check_single_image, check_single_media, check_mixed, check_text,
      hf, hr, hI, hM, hnotlt]

/-- Exact characterisation of when classification yields the `at` type, over
any parsed accumulator whose media descriptors come from the scan. -/
theorem det_at_iff (Lc : QLocale) (p : ParsedMessage) (orig : List Segment)
    (hmedia : ∀ m ∈ p.media_items, m.type = "video" ∨ m.type = "voice" ∨ m.type = "file") :
    (determine_message_type Lc p orig).type = "at"
      ↔ (p.has_forward = false ∧ p.has_reply = false ∧ p.has_at = true ∧
         p.images = [] ∧ p.media_items = [] ∧ (pyStrip p.text_content).length < 50) := by
  constructor
  · intro h
    have hf : p.has_forward = false := by
      cases hfb : p.has_forward
      · rfl
      · rw [det_forward Lc p orig hfb] at h
        exact absurd h (by decide)
    have hr : p.has_reply = false := by
      cases hrb : p.has_reply
      · rfl
      · rw [det_reply Lc p orig hf hrb] at h
        exact absurd h (by decide)
    rcases hI : p.images with _ | ⟨i1, is1⟩
    · rcases hM : p.media_items with _ | ⟨m1, ms1⟩
      · have hat : p.has_at = true := by
          cases hab : p.has_at
          · rw [det_text Lc p orig hf hr hI hM (Or.inl hab)] at h
            exact absurd h (by decide)
          · rfl
        have hlen : (pyStrip p.text_content).length < 50 := by
          by_contra hge
          rw [det_text Lc p orig hf hr hI hM (Or.inr (le_of_not_lt hge))] at h
          exact absurd h (by decide)
        exact ⟨hf, hr, hat, rfl, rfl, hlen⟩
      · exfalso
        rcases hms1 : ms1 with _ | ⟨m2, ms2⟩
        · rw [hms1] at hM
          rw [det_single_media Lc p orig m1 hf hr hM hI] at h
          rcases hmedia m1 (by rw [hM]; exact List.mem_cons_self _ _) with ht | ht | ht <;>
            rw [ht] at h <;> exact absurd h (by decide)
        · rw [hms1] at hM
          rw [det_mixed Lc p orig hf hr (Or.inr ⟨hI, by rw [hM]; simp⟩)] at h
          exact absurd h (by decide)
    · rcases his1 : is1 with _ | ⟨i2, is2⟩
      · rw [his1] at hI
        rcases hM : p.media_items with _ | ⟨m1, ms1⟩
        · exfalso
          rw [det_single_image Lc p orig i1 hf hr hI hM] at h
          cases hsi : i1.is_sticker <;> rw [hsi] at h <;> simp at h
        · exfalso
          rw [det_mixed Lc p orig hf hr (Or.inl ⟨by rw [hI]; rfl, by rw [hM]; simp⟩)] at h
          exact absurd h (by decide)
      · exfalso
        rw [his1] at hI
        have hlen2 : 1 < p.images.length := by
          rw [hI]
          simp
        rw [det_images Lc p orig hf hr hlen2] at h
        exact absurd h (by decide)
  · rintro ⟨hf, hr, hat, hI, hM, hlen⟩
    exact det_at Lc p orig hf hr hat hI hM hlen

/-- Classification always yields one of the eleven fixed type strings. -/
theorem det_type_mem (Lc : QLocale) (p : ParsedMessage) (orig : List Segment)
    (hmedia : ∀ m ∈ p.media_items, m.type = "video" ∨ m.type = "voice" ∨ m.type = "file") :
    (determine_message_type Lc p orig).type ∈
      (["forward", "reply", "at", "images", "sticker", "image",
        "video", "voice", "file", "mixed", "text"] : List String) := by
  by_cases hf : p.has_forward = true
  · rw [det_forward Lc p orig hf]
    decide
  · simp only [Bool.not_eq_true] at hf
    by_cases hr : p.has_reply = true
    · rw [det_reply Lc p orig hf hr]
      decide
    · simp only [Bool.not_eq_true] at hr
      rcases hI : p.images with _ | ⟨i1, is1⟩
      · rcases hM : p.media_items with _ | ⟨m1, ms1⟩
        · by_cases hat : p.has_at = true
          · by_cases hlen : (pyStrip p.text_content).length < 50
            · rw [det_at Lc p orig hf hr hat hI hM hlen]
              decide
            · rw [det_text Lc p orig hf hr hI hM (Or.inr (le_of_not_lt hlen))]
              decide
          · simp only [Bool.not_eq_true] at hat
            rw [det_text Lc p orig hf hr hI hM (Or.inl hat)]
            decide
        · rcases hms1 : ms1 with _ | ⟨m2, ms2⟩
          · rw [hms1] at hM
            rw [det_single_media Lc p orig m1 hf hr hM hI]
            rcases hmedia m1 (by rw [hM]; exact List.mem_cons_self _ _) with ht | ht | ht <;>
              rw [ht] <;> decide
          · rw [hms1] at hM
            rw [det_mixed Lc p orig hf hr (Or.inr ⟨hI, by rw [hM]; simp⟩)]
            decide
      · rcases his1 : is1 with _ | ⟨i2, is2⟩
        · rw [his1] at hI
          rcases hM : p.media_items with _ | ⟨m1, ms1⟩
          · rw [det_single_image Lc p orig i1 hf hr hI hM]
            cases i1.is_sticker <;> decide
          · rw [det_mixed Lc p orig hf hr (Or.inl ⟨by rw [hI]; rfl, by rw [hM]; simp⟩)]
            decide
        · rw [his1] at hI
          have hlen2 : 1 < p.images.length := by
            rw [hI]
            simp
          rw [det_images Lc p orig hf hr hlen2]
          decide

/-! ### Concrete extractor context used by counterexamples and witnesses -/

def testLocale : QLocale :=
  ⟨"video", "voice", "file", "reply", "share", "music", "location", "emoji",
    "image", "forward", "sticker", "unknown", "all"⟩

def testCtx : ExtractorCtx :=
  ⟨testLocale, fun _ _ => FetchOutcome.exn, fun _ => none⟩

def testCM : CallbackMessage := ⟨0, "777"⟩

/-- **C3 counterexample.**  A message consisting of one image segment with no
URL and no text classifies as `text` (content `[图片]`), not as `image` or
`sticker`: `_handle_image` only collects an image descriptor when the segment
carries a URL. -/
theorem image_segment_without_url_is_text :
    (extract testCtx testCM (.segs [.image "" "f.jpg" "" "" 0])).type = "text"
    ∧ (extract testCtx testCM (.segs [.image "" "f.jpg" "" "" 0])).type ≠ "image"
    ∧ (extract testCtx testCM (.segs [.image "" "f.jpg" "" "" 0])).type ≠ "sticker" := by
  refine ⟨?_, ?_, ?_⟩ <;> decide

/-- **C3 (amended).**  Classification assigns exactly one type, by the first
matching rule in the fixed order forward > reply > pure-@-mention > multiple
images > single image/sticker > single other-media > mixed > plain text
(conjuncts 1-8, phrased as: whenever every earlier rule fails and a rule's
condition holds, that rule's type is returned); in particular a message with
both a reply and a forward segment classifies as `forward` (conjunct 9), a
message of one image segment carrying a non-empty URL and no text classifies
as `image` or `sticker` (conjunct 10), and one of two image segments carrying
non-empty URLs classifies as `images` (conjunct 11).  (The URL qualifier is
the amendment: a URL-less image segment degrades to a text placeholder, see
`image_segment_without_url_is_text`.) -/
theorem classifier_precedence (ctx : ExtractorCtx) (cm : CallbackMessage) :
    (∀ segs, (parse_all_segments ctx cm segs).has_forward = true →
        (extract ctx cm (.segs segs)).type = "forward")
    ∧ (∀ segs, (parse_all_segments ctx cm segs).has_forward = false →
        (parse_all_segments ctx cm segs).has_reply = true →
        (extract ctx cm (.segs segs)).type = "reply")
    ∧ (∀ segs, (parse_all_segments ctx cm segs).has_forward = false →
        (parse_all_segments ctx cm segs).has_reply = false →
        (parse_all_segments ctx cm segs).has_at = true →
        (parse_all_segments ctx cm segs).images = [] →
        (parse_all_segments ctx cm segs).media_items = [] →
        (pyStrip (parse_all_segments ctx cm segs).text_content).length < 50 →
        (extract ctx cm (.segs segs)).type = "at")
    ∧ (∀ segs, (parse_all_segments ctx cm segs).has_forward = false →
        (parse_all_segments ctx cm segs).has_reply = false →
        1 < (parse_all_segments ctx cm segs).images.length →
        (extract ctx cm (.segs segs)).type = "images")
    ∧ (∀ segs img, (parse_all_segments ctx cm segs).has_forward = false →
        (parse_all_segments ctx cm segs).has_reply = false →
        (parse_all_segments ctx cm segs).images = [img] →
        (parse_all_segments ctx cm segs).media_items = [] →
        (extract ctx cm (.segs segs)).type = (if img.is_sticker then "sticker" else "image"))
    ∧ (∀ segs m, (parse_all_segments ctx cm segs).has_forward = false →
        (parse_all_segments ctx cm segs).has_reply = false →
        (parse_all_segments ctx cm segs).media_items = [m] →
        (parse_all_segments ctx cm segs).images = [] →
        (extract ctx cm (.segs segs)).type = m.type)
    ∧ (∀ segs, (parse_all_segments ctx cm segs).has_forward = false →
        (parse_all_segments ctx cm segs).has_reply = false →
        (((parse_all_segments ctx cm segs).images.length = 1 ∧
            (parse_all_segments ctx cm segs).media_items ≠ []) ∨
          ((parse_all_segments ctx cm segs).images = [] ∧
            2 ≤ (parse_all_segments ctx cm segs).media_items.length)) →
        (extract ctx cm (.segs segs)).type = "mixed")
    ∧ (∀ segs, (parse_all_segments ctx cm segs).has_forward = false →
        (parse_all_segments ctx cm segs).has_reply = false →
        (parse_all_segments ctx cm segs).images = [] →
        (parse_all_segments ctx cm segs).media_items = [] →
        ((parse_all_segments ctx cm segs).has_at = false ∨
          50 ≤ (pyStrip (parse_all_segments ctx cm segs).text_content).length) →
        (extract ctx cm (.segs segs)).type = "text")
    ∧ (∀ segs, segs.any isReplySeg = true → segs.any isForwardSeg = true →
        (extract ctx cm (.segs segs)).type = "forward")
    ∧ (∀ url file fs summary sub, url ≠ "" →
        (extract ctx cm (.segs [.image url file fs summary sub])).type = "sticker" ∨
        (extract ctx cm (.segs [.image url file fs summary sub])).type = "image")
    ∧ (∀ u1 f1 fs1 s1 st1 u2 f2 fs2 s2 st2, u1 ≠ "" → u2 ≠ "" →
        (extract ctx cm
          (.segs [.image u1 f1 fs1 s1 st1, .image u2 f2 fs2 s2 st2])).type = "images") := by
  refine ⟨?_, ?_, ?_, ?_, ?_, ?_, ?_, ?_, ?_, ?_, ?_⟩
  · intro segs hf
    exact det_forward ctx.locale _ segs hf
  · intro segs hf hr
    exact det_reply ctx.locale _ segs hf hr
  · intro segs hf hr hat hI hM hlen
    exact det_at ctx.locale _ segs hf hr hat hI hM hlen
  · intro segs hf hr hlen
    exact det_images ctx.locale _ segs hf hr hlen
  · intro segs img hf hr hI hM
    exact det_single_image ctx.locale _ segs img hf hr hI hM
  · intro segs m hf hr hM hI
    exact det_single_media ctx.locale _ segs m hf hr hM hI
  · intro segs hf hr hcond
    exact det_mixed ctx.locale _ segs hf hr hcond
  · intro segs hf hr hI hM hat
    exact det_text ctx.locale _ segs hf hr hI hM hat
  · intro segs _ hfwd
    refine det_forward ctx.locale _ segs ?_
    unfold parse_all_segments
    rw [parse_foldl_has_forward]
    simp [ParsedMessage.empty, hfwd]
  · intro url file fs summary sub hu
    have hp : parse_all_segments ctx cm [.image url file fs summary sub]
        = { ParsedMessage.empty with
            images := [⟨url, file, fs,
              decide (summary = "[动画表情]" ∨ sub = 1 ∨ "动画表情".data <:+: summary.data),
              summary⟩] } := by
      simp [parse_all_segments, parse_segment, handle_image, hu, ParsedMessage.empty]
    have h := det_single_image ctx.locale
      (parse_all_segments ctx cm [Segment.image url file fs summary sub])
      [Segment.image url file fs summary sub]
      (⟨url, file, fs,
        decide (summary = "[动画表情]" ∨ sub = 1 ∨ "动画表情".data <:+: summary.data),
        summary⟩ : ImageInfo)
      (by simp [hp, ParsedMessage.empty]) (by simp [hp, ParsedMessage.empty])
      (by simp [hp, ParsedMessage.empty]) (by simp [hp, ParsedMessage.empty])
    show (determine_message_type ctx.locale
        (parse_all_segments ctx cm [Segment.image url file fs summary sub])
        [Segment.image url file fs summary sub]).type = "sticker" ∨
      (determine_message_type ctx.locale
        (parse_all_segments ctx cm [Segment.image url file fs summary sub])
        [Segment.image url file fs summary sub]).type = "image"
    rw [h]
    cases hst : decide (summary = "[动画表情]" ∨ sub = 1 ∨ "动画表情".data <:+: summary.data) <;>
      simp [hst]
  · intro u1 f1 fs1 s1 st1 u2 f2 fs2 s2 st2 h1 h2
    refine det_images ctx.locale _ _ ?_ ?_ ?_ <;>
      simp [parse_all_segments, parse_segment, handle_image, h1, h2, ParsedMessage.empty]

/-- Witness for `classifier_precedence`: a reply segment followed by a
forward segment classifies as `forward`. -/
theorem classifier_precedence_witness :
    (extract testCtx testCM (.segs [.reply "", .forward "1"])).type = "forward" :=
  (classifier_precedence testCtx testCM).2.2.2.2.2.2.2.2.1
    [.reply "", .forward "1"] (by decide) (by decide)

/-- **C7 counterexample.**  A message satisfying all the claim's conditions —
an `at` segment, no image or media descriptors, short text — that additionally
carries a reply segment classifies as `reply`, not `at`: the reply rule
precedes the at rule, so the claimed "exactly when" equivalence fails. -/
theorem at_conditions_not_sufficient :
    (parse_all_segments testCtx testCM [.reply "", .atSeg "5"]).has_at = true
    ∧ (parse_all_segments testCtx testCM [.reply "", .atSeg "5"]).images = []
    ∧ (parse_all_segments testCtx testCM [.reply "", .atSeg "5"]).media_items = []
    ∧ (pyStrip (parse_all_segments testCtx testCM [.reply "", .atSeg "5"]).text_content).length < 50
    ∧ (extract testCtx testCM (.segs [.reply "", .atSeg "5"])).type = "reply"
    ∧ (extract testCtx testCM (.segs [.reply "", .atSeg "5"])).type ≠ "at" := by
  refine ⟨?_, ?_, ?_, ?_, ?_, ?_⟩ <;> decide

/-- **C7 (amended).**  Classification yields the `at` type *exactly when* the
message contains no forward and no reply segment (the two rules that outrank
it), contains at least one `at` segment, collected no image and no other-media
descriptors, and its combined text content, stripped, is shorter than the
50-character threshold. -/
theorem classifier_at_type_iff (ctx : ExtractorCtx) (cm : CallbackMessage)
    (segs : List Segment) :
    (extract ctx cm (.segs segs)).type = "at"
      ↔ ((parse_all_segments ctx cm segs).has_forward = false
        ∧ (parse_all_segments ctx cm segs).has_reply = false
        ∧ segs.any isAtSeg = true
        ∧ (parse_all_segments ctx cm segs).images = []
        ∧ (parse_all_segments ctx cm segs).media_items = []
        ∧ (pyStrip (parse_all_segments ctx cm segs).text_content).length < 50) := by
  have h := det_at_iff ctx.locale (parse_all_segments ctx cm segs) segs
    (fun m hm => parse_media_types ctx cm segs m hm)
  have hat : (parse_all_segments ctx cm segs).has_at = segs.any isAtSeg := by
    unfold parse_all_segments
    rw [parse_foldl_has_at]
    simp [ParsedMessage.empty]
  constructor
  · intro ht
    obtain ⟨h1, h2, h3, h4, h5, h6⟩ := h.mp ht
    exact ⟨h1, h2, by rw [← hat]; exact h3, h4, h5, h6⟩
  · rintro ⟨h1, h2, h3, h4, h5, h6⟩
    exact h.mpr ⟨h1, h2, by rw [hat]; exact h3, h4, h5, h6⟩

/-- **C8.**  `extract` is total and degrades instead of failing:
(1) for every message value — list-shaped or not — and any behaviour of the
display-name lookup and the JSON parser, the result carries one of the eleven
classification types (nothing propagates);
(2) an `at` segment whose display-name lookup raises contributes the raw
identifier placeholder `[@qq]` and the scan continues over the remaining
segments from that accumulator;
(3) a `json` segment whose payload fails to parse contributes the inline
`[JSON消息]` placeholder and the scan likewise continues;
(4) a non-list message value collapses to a `text`-typed fallback result. -/
theorem extract_total_and_degrades (ctx : ExtractorCtx) (cm : CallbackMessage) :
    (∀ msg, (extract ctx cm msg).type ∈
      (["forward", "reply", "at", "images", "sticker", "image",
        "video", "voice", "file", "mixed", "text"] : List String))
    ∧ (∀ qq rest, qq ≠ "all" → ctx.fetchUser cm.group_id qq = .exn →
        parse_all_segments ctx cm (.atSeg qq :: rest)
          = rest.foldl (parse_segment ctx cm)
              { ParsedMessage.empty with
                  has_at := true,
                  at_segments := [.atSeg qq],
                  text_parts := ["[@" ++ qq ++ "]"] })
    ∧ (∀ s rest, ctx.jsonParse s = none →
        parse_all_segments ctx cm (.jsonSeg s :: rest)
          = rest.foldl (parse_segment ctx cm)
              { ParsedMessage.empty with text_parts := ["[JSON消息]"] })
    ∧ (∀ b r, (extract ctx cm (.notList b r)).type = "text") := by
  refine ⟨?_, ?_, ?_, ?_⟩
  · intro msg
    cases msg with
    | notList b r =>
        show "text" ∈ _
        decide
    | segs l =>
        exact det_type_mem ctx.locale (parse_all_segments ctx cm l) l
          (fun m hm => parse_media_types ctx cm l m hm)
  · intro qq rest hq hf
    unfold parse_all_segments
    rw [List.foldl_cons]
    congr 1
    simp [parse_segment, handle_at, at_display, hq, hf, ParsedMessage.empty]
  · intro s rest hj
    unfold parse_all_segments
    rw [List.foldl_cons]
    congr 1
    simp [parse_segment, handle_json, json_text, hj, ParsedMessage.empty]
  · intro b r
    rfl

/-- Witness for `extract_total_and_degrades`: a failed lookup for `@5`
degrades to `[@5]` and the following text segment is still scanned. -/
theorem extract_total_and_degrades_witness :
    (extract testCtx testCM (.segs [.atSeg "5", .text "hi"])).type ∈
      (["forward", "reply", "at", "images", "sticker", "image",
        "video", "voice", "file", "mixed", "text"] : List String)
    ∧ parse_all_segments testCtx testCM [.atSeg "5", .text "hi"]
        = [Segment.text "hi"].foldl (parse_segment testCtx testCM)
            { ParsedMessage.empty with
                has_at := true,
                at_segments := [.atSeg "5"],
                text_parts := ["[@" ++ "5" ++ "]"] }
    ∧ parse_all_segments testCtx testCM [.jsonSeg "not-json"]
        = ([] : List Segment).foldl (parse_segment testCtx testCM)
            { ParsedMessage.empty with text_parts := ["[JSON消息]"] }
    ∧ (extract testCtx testCM (.notList true "x")).type = "text" :=
  ⟨(extract_total_and_degrades testCtx testCM).1 (.segs [.atSeg "5", .text "hi"]),
    (extract_total_and_degrades testCtx testCM).2.1 "5" [.text "hi"] (by decide) rfl,
    (extract_total_and_degrades testCtx testCM).2.2.1 "not-json" [] rfl,
    (extract_total_and_degrades testCtx testCM).2.2.2 true "x"⟩

/-! ## Forward expander: _process_forward_content
(src/utils/qq_to_telegram.py lines 429-757)

One forwarded message inside a bundle carries its sender, its own
`message_id` (which, for a nested forward, is what `GET_FORWARD` is called
with: the classifier returns it as the `content` of a `forward`-typed
result), its `group_id`, and its segment array.  `GET_FORWARD` is the oracle
`getFwd`; the telegram sends and media downloads are projected onto a trace
of `FwdOutput` events. -/

structure RawMsg where
  nickname : String
  card : String
  message_id : String
  group_id : Nat
  message : MessageField
deriving Repr, DecidableEq

/-- Observable events of `_process_forward_content`, tagged with the `depth`
argument of the call that emits them. -/
inductive FwdOutput where
  /-- the `[合并转发嵌套过深，已省略 (深度: d)]` message sent when
  `depth > MAX_DEPTH` (lines 433-439). -/
  | truncated (depth : Nat)
  /-- bundle content processed: the preview loop ran at this depth over
  `count` messages (lines 441-456). -/
  | bundle (depth : Nat) (count : Nat)
  /-- one preview entry generated, recorded with its classified type. -/
  | line (depth : Nat) (type : String)
  /-- a nested forward whose `GET_FORWARD` content came back empty:
  warning only, no recursion (lines 739-740). -/
  | nestedEmpty (depth : Nat)
  /-- `int(msg_id)` raised for a nested forward id: the except branch sends
  an error text, no recursion (lines 742-745). -/
  | nestedError (depth : Nat)
deriving Repr, DecidableEq

/-- `MAX_DEPTH = 5` (qq_to_telegram.py line 433). -/
def MAX_DEPTH : Nat := 5

/-- Decimal digit-string value, `none` for empty or non-digit input. -/
def digitsToNat (l : List Char) : Option Nat :=
  if l = [] then none
  else if l.all (fun c => c.isDigit) then
    some (l.foldl (fun acc c => acc * 10 + (c.toNat - 48)) 0)
  else none

/-- Python `int(s)` on the canonical message-id strings: an optional sign
followed by decimal digits. -/
def pyParseInt (s : String) : Option Int :=
  match s.data with
  | [] => none
  | c :: rest =>
      if c = '-' then (digitsToNat rest).map (fun n => -(n : Int))
      else if c = '+' then (digitsToNat rest).map (fun n => (n : Int))
      else (digitsToNat (c :: rest)).map (fun n => (n : Int))

/-- The nested forwards collected while previewing a bundle (lines 469-480):
the `content` (= nested message id) of every contained message the
classifier types as `forward`, in order. -/
def nested_forwards (ctx : ExtractorCtx) (content : List RawMsg) : List String :=
  content.filterMap (fun m =>
    let res := extract ctx ⟨m.group_id, m.message_id⟩ m.message
    if res.type = "forward" then
      some (match res.content with | .str s => s | .imgList _ => "")
    else none)

/-- The recursion of `_process_forward_content`, made structural on the
budget `MAX_DEPTH + 1 - depth`: the code's own termination argument is
exactly that the guard `depth > MAX_DEPTH` stops the recursion, each
recursive call using `depth + 1`.  `process_forward_content_eq` below
recovers the code-shaped unfolding. -/
def processForwardGo (ctx : ExtractorCtx) (getFwd : String → List RawMsg) :
    Nat → List RawMsg → Nat → List FwdOutput
  | 0, _, depth => [.truncated depth]
  | b + 1, content, depth =>
      FwdOutput.bundle depth content.length ::
      (content.map (fun m =>
        FwdOutput.line depth (extract ctx ⟨m.group_id, m.message_id⟩ m.message).type))
      ++ ((nested_forwards ctx content).map (fun nid =>
            match pyParseInt nid with
            | none => [FwdOutput.nestedError (depth + 1)]
            | some _ =>
                match getFwd nid with
                | [] => [FwdOutput.nestedEmpty (depth + 1)]
                | nc => processForwardGo ctx getFwd b nc (depth + 1))).flatten

/-- `_process_forward_content(chat_id, sender_info, forward_content, depth)`
(lines 429-757), as the trace of its observable events. -/
def process_forward_content (ctx : ExtractorCtx) (getFwd : String → List RawMsg)
    (content : List RawMsg) (depth : Nat) : List FwdOutput :=
  processForwardGo ctx getFwd (MAX_DEPTH + 1 - depth) content depth

/-- Code-shaped unfolding of `process_forward_content`: guard first, then
bundle preview, then the deferred nested recursions at `depth + 1`. -/
theorem process_forward_content_eq (ctx : ExtractorCtx) (getFwd : String → List RawMsg)
    (content : List RawMsg) (depth : Nat) :
    process_forward_content ctx getFwd content depth =
      if depth > MAX_DEPTH then [.truncated depth]
      else
        FwdOutput.bundle depth content.length ::
        (content.map (fun m =>
          FwdOutput.line depth (extract ctx ⟨m.group_id, m.message_id⟩ m.message).type))
        ++ ((nested_forwards ctx content).map (fun nid =>
              match pyParseInt nid with
              | none => [FwdOutput.nestedError (depth + 1)]
              | some _ =>
                  match getFwd nid with
                  | [] => [FwdOutput.nestedEmpty (depth + 1)]
                  | nc => process_forward_content ctx getFwd nc (depth + 1))).flatten := by
  by_cases h : depth > MAX_DEPTH
  · have hb : MAX_DEPTH + 1 - depth = 0 := by
      unfold MAX_DEPTH at *
      omega
    rw [if_pos h]
    unfold process_forward_content
    rw [hb]
    rfl
  · have hb : MAX_DEPTH + 1 - depth = (MAX_DEPTH + 1 - (depth + 1)) + 1 := by
      unfold MAX_DEPTH at *
      omega
    rw [if_neg h]
    unfold process_forward_content
    rw [hb]
    rfl

/-- Bundle previews are only ever built at depths within the limit: the
budget `b` never exceeds `MAX_DEPTH + 1 - depth`, and a zero budget emits the
truncation marker without touching the bundle. -/
theorem go_bundle_depth_le (ctx : ExtractorCtx) (getFwd : String → List RawMsg) :
    ∀ (b : Nat) (content : List RawMsg) (depth : Nat),
      b ≤ MAX_DEPTH + 1 - depth →
      ∀ d n, FwdOutput.bundle d n ∈ processForwardGo ctx getFwd b content depth →
        d ≤ MAX_DEPTH := by
  intro b
  induction b with
  | zero =>
      intro content depth hb d n hmem
      simp [processForwardGo] at hmem
  | succ b ih =>
      intro content depth hb d n hmem
      have hd : depth ≤ MAX_DEPTH := by
        unfold MAX_DEPTH at *
        omega
      have hb' : b ≤ MAX_DEPTH + 1 - (depth + 1) := by
        unfold MAX_DEPTH at *
        omega
      simp only [processForwardGo] at hmem
      rcases List.mem_cons.mp hmem with heq | hmem
      · cases heq
        exact hd
      · rcases List.mem_append.mp hmem with h1 | h1
        · rcases List.mem_map.mp h1 with ⟨m, _, heq⟩
          cases heq
        · rcases List.mem_flatten.mp h1 with ⟨l, hl, hml⟩
          rcases List.mem_map.mp hl with ⟨nid, _, rfl⟩
          cases hi : pyParseInt nid with
          | none =>
              rw [hi] at hml
              simp at hml
          | some v =>
              rw [hi] at hml
              cases hgf : getFwd nid with
              | nil =>
                  rw [hgf] at hml
                  simp at hml
              | cons a as =>
                  rw [hgf] at hml
                  exact ih (a :: as) (depth + 1) hb' d n hml

/-! ### A synthetic forward chain nested 7 levels deep -/

/-- Level-`k` bundle member of the chain: a forwarded message whose content
is itself a forward; its own `message_id` (`toString k`) is what
`GET_FORWARD` resolves to the next bundle. -/
def chainRaw (k : String) : RawMsg := ⟨"nick", "", k, 0, .segs [.forward "f"]⟩

def chainEnd : RawMsg := ⟨"nick", "", "99", 0, .segs [.text "end"]⟩

/-- The `GET_FORWARD` oracle of the 7-deep chain: bundle `k+1` hangs below
the level-`k` message, the 7th bundle holding the final plain message. -/
def chainFwd (s : String) : List RawMsg :=
  if s = "1" then [chainRaw "2"]
  else if s = "2" then [chainRaw "3"]
  else if s = "3" then [chainRaw "4"]
  else if s = "4" then [chainRaw "5"]
  else if s = "5" then [chainRaw "6"]
  else if s = "6" then [chainRaw "7"]
  else if s = "7" then [chainEnd]
  else []

def isTruncatedOut : FwdOutput → Bool
  | .truncated _ => true
  | _ => false

/-- **C5.**  Expanding the 7-level forward chain (a total function in this
embedding, hence terminating) emits the explicit nesting-too-deep truncation
marker — exactly once, at depth 6, where the guard `depth > MAX_DEPTH` first
fails — and, in general, bundle content is never processed at a depth past
`MAX_DEPTH = 5`, for any oracle, bundle and starting depth. -/
theorem forward_depth_limit :
    FwdOutput.truncated 6 ∈ process_forward_content testCtx chainFwd [chainRaw "1"] 0
    ∧ ((process_forward_content testCtx chainFwd [chainRaw "1"] 0).filter
        isTruncatedOut).length = 1
    ∧ (∀ (ctx : ExtractorCtx) (getFwd : String → List RawMsg)
        (content : List RawMsg) (depth d n : Nat),
        FwdOutput.bundle d n ∈ process_forward_content ctx getFwd content depth →
        d ≤ MAX_DEPTH) := by
  refine ⟨?_, ?_, ?_⟩
  · decide
  · decide
  · intro ctx getFwd content depth d n hmem
    exact go_bundle_depth_le ctx getFwd (MAX_DEPTH + 1 - depth) content depth le_rfl d n hmem

/-- Witness for `forward_depth_limit`: the top bundle itself is processed at
depth 0, within the limit. -/
theorem forward_depth_limit_witness :
    FwdOutput.bundle 0 1 ∈ process_forward_content testCtx chainFwd [chainRaw "1"] 0
    ∧ (0 : Nat) ≤ MAX_DEPTH :=
  ⟨by decide,
    forward_depth_limit.2.2 testCtx chainFwd [chainRaw "1"] 0 0 1 (by decide)⟩
